import Mathlib

/-!
# Verification of the open-government-data conversion and loading pipeline

A shallow embedding of the repository's converter and loader logic:

* `src/scripts/nep-gaa/converter.py` — budget record conversion
  (code-field parsing, amount cleaning, record assembly);
* `src/scripts/uacs/organization/converter.py` — 12-digit organization
  code segmentation;
* `src/scripts/uacs/location/converter.py` — paginated fetch with
  checkpointing and retry;
* `src/scripts/uacs/mfo-pap/converter.py` — PREXC hierarchy
  deduplication;
* `src/sync.py` — batched keyed node upsert, relationship derivation and
  paged derivation loops against the graph store.

Python strings are modelled by Lean `String`, `None` by `Option.none`,
dictionaries with known keys by structures with `Option`-valued fields,
and floats by `ℚ` (the amounts exercised here are plain decimals, which
both represent exactly).
-/

namespace OGD

/-! ## String helpers shared by the converters -/

/-- Data-level take on strings: the first `n` characters (Python `s[:n]`). -/
def strTake (s : String) (n : Nat) : String := ⟨s.data.take n⟩

/-- Data-level drop on strings (Python `s[n:]`). -/
def strDrop (s : String) (n : Nat) : String := ⟨s.data.drop n⟩

/-- Python slice `s[a:b]` for `a ≤ b`. -/
def strSlice (s : String) (a b : Nat) : String := strTake (strDrop s a) (b - a)

/-- Python `str.zfill(w)`: pad on the left with `'0'` to width `w`; a string
already at least `w` long is returned unchanged.  (The inputs fed to it in
this repository are unsigned digit strings, so the sign handling of
`str.zfill` never fires.) -/
def zfill (w : Nat) (s : String) : String :=
  if w ≤ s.length then s else ⟨List.replicate (w - s.length) '0' ++ s.data⟩

/-- A string consisting only of the fill digit `'0'` (an all-zero code). -/
def allZero (s : String) : Bool := s.data.all (· == '0')

/-- Python `str.strip()` (and Lean `String.trim`) on the inputs that occur
here: remove leading and trailing whitespace.  Defined directly on the
character list so that it reduces inside the kernel. -/
def pyStrip (s : String) : String :=
  ⟨((s.data.dropWhile Char.isWhitespace).reverse.dropWhile Char.isWhitespace).reverse⟩

theorem strSlice_data (s : String) (a b : Nat) :
    (strSlice s a b).data = (s.data.drop a).take (b - a) := rfl

theorem string_mk_inj {l m : List Char} : (⟨l⟩ : String) = ⟨m⟩ ↔ l = m :=
  ⟨congrArg String.data, congrArg String.mk⟩

theorem string_eq_iff_data {s t : String} : s = t ↔ s.data = t.data := by
  cases s; cases t; exact string_mk_inj

theorem zfill_data (w : Nat) (s : String) :
    (zfill w s).data = List.replicate (w - s.length) '0' ++ s.data := by
  unfold zfill
  split
  · rename_i h
    have : w - s.length = 0 := Nat.sub_eq_zero_of_le h
    simp [this]
  · rfl

theorem length_eq_data_length (s : String) : s.length = s.data.length := rfl

theorem zfill_length (w : Nat) (s : String) :
    (zfill w s).length = max w s.length := by
  rw [length_eq_data_length, zfill_data, List.length_append,
    List.length_replicate, ← length_eq_data_length]
  omega

theorem zfill_length_of_le {w : Nat} {s : String} (h : s.length ≤ w) :
    (zfill w s).length = w := by
  rw [zfill_length]; omega

/-- `zfill` preserves and reflects being all fill digits. -/
theorem allZero_zfill (w : Nat) (s : String) :
    allZero (zfill w s) = allZero s := by
  unfold allZero
  rw [zfill_data]
  simp [List.all_append, List.all_eq_true]

theorem allZero_append (s t : String) :
    allZero (s ++ t) = (allZero s && allZero t) := by
  unfold allZero
  simp [String.data_append, List.all_append]

/-- On a string of known length `n`, being all fill digits is the same as
being the all-zero code of width `n`. -/
theorem allZero_iff_eq_replicate {s : String} {n : Nat} (h : s.length = n) :
    allZero s = true ↔ s = ⟨List.replicate n '0'⟩ := by
  rw [string_eq_iff_data]
  unfold allZero
  rw [List.eq_replicate_iff]
  simp only [List.all_eq_true, beq_iff_eq]
  constructor
  · intro hall
    exact ⟨h, fun b hb => hall b hb⟩
  · rintro ⟨-, hall⟩ b hb
    exact hall b hb

/-! ## `src/scripts/nep-gaa/converter.py` — budget record conversion

Raw budget records arrive as JSON objects; each field is either absent /
`None` (modelled `Option.none`) or a value whose Python `str()` form is
the `String` carried here.  `YearBasedBudgetConverter` is stateless apart
from the fund-category lookup, which we pass explicitly. -/

/-- The digits of a decimal string as a number, or `none` if some character
is not a digit.  (Helper for the Python `float()` model.) -/
def digitsVal (l : List Char) : Option Nat :=
  l.foldl
    (fun acc c =>
      acc.bind fun n => if c.isDigit then some (10 * n + (c.toNat - 48)) else none)
    (some 0)

/-- The string-processing half of the Python `float()` model: optional
surrounding whitespace, optional sign, an integer part and an optional
fractional part, at least one digit in total.  Returns
`(negative, integer part, fraction digits value, fraction length)`, or
`none` where `float()` raises `ValueError`. -/
def pyFloatParse (s : String) : Option (Bool × Nat × Nat × Nat) :=
  let l := (pyStrip s).data
  let (neg, l) : Bool × List Char :=
    match l with
    | '-' :: r => (true, r)
    | '+' :: r => (false, r)
    | r => (false, r)
  let ip := l.takeWhile (· ≠ '.')
  match l.dropWhile (· ≠ '.') with
  | '.' :: fp =>
      if ip.isEmpty && fp.isEmpty then none
      else
        (digitsVal ip).bind fun i =>
          (digitsVal fp).map fun f => (neg, i, f, fp.length)
  | _ => if ip.isEmpty then none else (digitsVal ip).map fun i => (neg, i, 0, 0)

/-- Python `float()` on the plain decimal fragment it is fed here.
Returns `none` where `float()` raises `ValueError`.  (Exponents,
`inf`/`nan` and `_` separators never occur in the budget inputs and are
treated as unparsable.) -/
def pyFloat (s : String) : Option ℚ :=
  (pyFloatParse s).map fun p =>
    (if p.1 then (-1 : ℚ) else 1) * ((p.2.1 : ℚ) + (p.2.2.1 : ℚ) / (10 : ℚ) ^ p.2.2.2)

/-- Python `str.replace(",", "")`. -/
def stripCommas (s : String) : String := ⟨s.data.filter (· ≠ ',')⟩

/-- `YearBasedBudgetConverter.clean_amount`: `None` and `""` yield `0.0`;
otherwise strip thousands separators and parse, any failure yielding
`0.0` instead of raising. -/
def clean_amount (amount : Option String) : ℚ :=
  match amount with
  | none => 0
  | some s => if s = "" then 0 else (pyFloat (stripCommas s)).getD 0

/-- `YearBasedBudgetConverter.is_valid_value` on string-or-`None` inputs:
`None` and whitespace-only strings are invalid. -/
def is_valid_value (v : Option String) : Bool :=
  match v with
  | none => false
  | some s => pyStrip s != ""

/-- `YearBasedBudgetConverter.parse_organization_code`: build the
12-digit organization code `DEPT(2) + AGENCY(3) + OPERUNIT(7)` from the
three component fields, or `none` when a component is blank or the
result is the all-zero 12-digit code. -/
def parse_organization_code (dept agency operunit : Option String) : Option String :=
  if is_valid_value dept && is_valid_value agency && is_valid_value operunit then
    let code :=
      zfill 2 (pyStrip (dept.getD "")) ++ zfill 3 (pyStrip (agency.getD "")) ++
        zfill 7 (pyStrip (operunit.getD ""))
    if code = "000000000000" then none else some code
  else none

/-- `YearBasedBudgetConverter.parse_region_code`: 2-digit region code,
`none` when blank or `"00"`. -/
def parse_region_code (region : Option String) : Option String :=
  match region with
  | none => none
  | some r =>
      if pyStrip r = "" then none
      else
        let s := zfill 2 (pyStrip r)
        if s = "00" then none else some s

/-- The funding-code parse result
(`{"uacs_code": …, "conversion_type": …, "original_code": …}`). -/
structure FundingInfo where
  uacs_code : String
  conversion_type : String
  original_code : Option String
  deriving DecidableEq, Repr

/-- `YearBasedBudgetConverter.load_fund_categories`: from the fund-category
records (given here by their `uacs_code` strings) build the dict mapping
`uacs[2:8]` to `uacs` for every 8-character `uacs_code`.  A Python dict
assignment lets the last write win, hence `getLast?` over the matching
categories. -/
def load_fund_categories (cats : List String) : String → Option String :=
  fun key => (cats.filter (fun u => u.length == 8 && strSlice u 2 8 == key)).getLast?

/-- `YearBasedBudgetConverter.parse_funding_code`: an 8-digit code is used
natively unless all zeros; a 6-digit code goes through the fund-category
lookup, keeping the original code; anything else is absent. -/
def parse_funding_code (lookup : String → Option String) (fundcd : Option String) :
    Option FundingInfo :=
  match fundcd with
  | none => none
  | some f =>
      if pyStrip f = "" then none
      else
        let s := pyStrip f
        if s.length = 8 then
          if s = "00000000" then none
          else some ⟨s, "native", none⟩
        else
          if s.length = 6 then
            match lookup s with
            | some full => some ⟨full, "6-digit-lookup", some s⟩
            | none => none
          else none

/-- Python `a or b` on string-or-`None` operands (used for
`record.get("UACS_SOBJ_CD") or record.get("UACS_OBJ_CD")`): the first
operand unless it is `None` or `""`. -/
def pyOr (a b : Option String) : Option String :=
  match a with
  | some s => if s = "" then b else some s
  | none => b

/-- `YearBasedBudgetConverter.parse_object_code`: pick `UACS_SOBJ_CD` or
`UACS_OBJ_CD`, pad to 10 digits, absent when blank or all zeros.  (The
source wraps the code in `{"uacs_code": …}`; only that one field is kept,
so the `String` is returned directly.) -/
def parse_object_code (sobj obj : Option String) : Option String :=
  let oc := pyOr sobj obj
  match oc with
  | none => none
  | some s =>
      if pyStrip s = "" then none
      else
        let p := zfill 10 (pyStrip s)
        if p = "0000000000" then none else some p

/-- `YearBasedBudgetConverter.safe_get` on a string-or-`None` field:
the default when absent, the stripped value otherwise. -/
def safe_get (v : Option String) (default : String) : String :=
  match v with
  | none => default
  | some s => pyStrip s

/-- A raw NEP/GAA budget record, restricted to the fields
`convert_record` reads. -/
structure NepRecord where
  department : Option String := none
  agency : Option String := none
  operunit : Option String := none
  uacs_reg_id : Option String := none
  fundcd : Option String := none
  uacs_sobj_cd : Option String := none
  uacs_obj_cd : Option String := none
  amt : Option String := none
  dsc : Option String := none
  prexc_fpap_id : Option String := none
  deriving Repr

/-- A converted budget item.  The `Option`-valued code fields model the
keys that `convert_record` inserts only conditionally: `none` means the
key is omitted from the output dict. -/
structure BudgetItem where
  id : String
  budget_type : String
  fiscal_year : String
  amount : ℚ
  description : String
  prexc_fpap_id : String
  org_uacs_code : Option String
  region_code : Option String
  funding_uacs_code : Option String
  funding_conversion_type : Option String
  object_uacs_code : Option String
  deriving DecidableEq, Repr

/-- `YearBasedBudgetConverter.convert_record`. -/
def convert_record (lookup : String → Option String) (record : NepRecord)
    (budget_type year : String) (record_number : Nat) : BudgetItem :=
  let org_code := parse_organization_code record.department record.agency record.operunit
  let region_code := parse_region_code record.uacs_reg_id
  let funding_info := parse_funding_code lookup record.fundcd
  let object_info := parse_object_code record.uacs_sobj_cd record.uacs_obj_cd
  { id := budget_type ++ "-" ++ year ++ "-" ++ zfill 10 (toString record_number)
    budget_type := budget_type
    fiscal_year := year
    amount := clean_amount record.amt
    description := safe_get record.dsc ""
    prexc_fpap_id := zfill 15 (safe_get record.prexc_fpap_id "000000000000000")
    org_uacs_code := org_code
    region_code := region_code
    funding_uacs_code := funding_info.map (·.uacs_code)
    funding_conversion_type := funding_info.map (·.conversion_type)
    object_uacs_code := object_info }

/-! ## `src/scripts/uacs/organization/converter.py` — code segmentation

`convert_operating_unit` slices the padded 12-digit UACS code at the
fixed offsets `[0:2]`, `[2:5]`, `[5:7]`, `[7:12]`. -/

/-- The four segment slices taken by `convert_operating_unit`:
`(dept_code, agency_code, class_code, lower_ou_code)`. -/
def segment_operating_unit (uacs : String) : String × String × String × String :=
  (strSlice uacs 0 2, strSlice uacs 2 5, strSlice uacs 5 7, strSlice uacs 7 12)

/-- Python `s[a:b] ++ s[b:c] = s[a:c]` for `a ≤ b ≤ c`, stated on the
character list. -/
theorem listSlice_append {l : List Char} {a b c : Nat} (hab : a ≤ b) (hbc : b ≤ c) :
    (l.drop a).take (b - a) ++ (l.drop b).take (c - b) = (l.drop a).take (c - a) := by
  have hdrop : l.drop b = (l.drop a).drop (b - a) := by
    rw [List.drop_drop]
    congr 1
    omega
  have hsplit : c - a = (b - a) + (c - b) := by omega
  rw [hsplit, List.take_add, hdrop]

theorem strSlice_append {s : String} {a b c : Nat} (hab : a ≤ b) (hbc : b ≤ c) :
    strSlice s a b ++ strSlice s b c = strSlice s a c := by
  rw [string_eq_iff_data, String.data_append, strSlice_data, strSlice_data, strSlice_data]
  exact listSlice_append hab hbc

theorem strSlice_zero_of_length {s : String} {n : Nat} (h : s.length = n) :
    strSlice s 0 n = s := by
  rw [string_eq_iff_data, strSlice_data]
  simp only [List.drop_zero, Nat.sub_zero]
  exact List.take_of_length_le (by rw [← length_eq_data_length, h])


/-! ## Claim theorems for the converter (C6–C8, C10) -/

/-- **C8.** Segmentation round-trips with padding: slicing a 12-character
organization code at the fixed offsets used by `convert_operating_unit`
and concatenating the segments in order reconstructs the code exactly
(`department(2) + agency(3) + class(2) + lower_ou(5)`), and in particular
this holds for `zfill 12 x` whenever `x` is at most 12 characters; while
building the code from components gives
`parse_organization_code "27" "001" "00001" = "270010000001"` with each
component zero-padded to its declared width, and
`parse_organization_code None "001" "00001"` is absent. -/
theorem C8_segmentation_round_trip :
    (∀ s : String, s.length = 12 →
      (segment_operating_unit s).1 ++ (segment_operating_unit s).2.1 ++
          (segment_operating_unit s).2.2.1 ++ (segment_operating_unit s).2.2.2 = s) ∧
    (∀ x : String, x.length ≤ 12 →
      (segment_operating_unit (zfill 12 x)).1 ++ (segment_operating_unit (zfill 12 x)).2.1 ++
          (segment_operating_unit (zfill 12 x)).2.2.1 ++
          (segment_operating_unit (zfill 12 x)).2.2.2 = zfill 12 x) ∧
    parse_organization_code (some "27") (some "001") (some "00001") = some "270010000001" ∧
    parse_organization_code none (some "001") (some "00001") = none := by
  have key : ∀ s : String, s.length = 12 →
      (segment_operating_unit s).1 ++ (segment_operating_unit s).2.1 ++
          (segment_operating_unit s).2.2.1 ++ (segment_operating_unit s).2.2.2 = s := by
    intro s hs
    show strSlice s 0 2 ++ strSlice s 2 5 ++ strSlice s 5 7 ++ strSlice s 7 12 = s
    rw [strSlice_append (by omega) (by omega), strSlice_append (by omega) (by omega),
      strSlice_append (by omega) (by omega)]
    exact strSlice_zero_of_length hs
  refine ⟨key, fun x hx => key _ (zfill_length_of_le hx), by decide, by decide⟩

/-- **C8 witness**: the round-trip evaluated on the 12-digit example code
from the source's docstring. -/
theorem C8_segmentation_round_trip_witness :
    ("270012200001" : String).length = 12 ∧
      (segment_operating_unit "270012200001").1 ++ (segment_operating_unit "270012200001").2.1 ++
          (segment_operating_unit "270012200001").2.2.1 ++
          (segment_operating_unit "270012200001").2.2.2 = "270012200001" :=
  ⟨by decide, C8_segmentation_round_trip.1 "270012200001" (by decide)⟩

theorem string_ne_empty_of_length_pos {s : String} (h : 0 < s.length) : s ≠ "" := by
  intro he
  rw [he] at h
  simp at h

/-- An 8-character non-zero funding code is taken natively, whatever the
fund-category lookup holds. -/
theorem parse_funding_code_eight {lookup : String → Option String} {f : String}
    (h8 : (pyStrip f).length = 8) (hnz : pyStrip f ≠ "00000000") :
    parse_funding_code lookup (some f) = some ⟨pyStrip f, "native", none⟩ := by
  have hne : pyStrip f ≠ "" := by
    intro h
    rw [h] at h8
    simp at h8
  unfold parse_funding_code
  simp [hne, h8, hnz]

/-- Branch analysis of `parse_organization_code` on present components:
present exactly when no component is blank and the padded concatenation is
not the all-zero 12-digit code. -/
theorem parse_org_isSome_iff {d a o : String}
    (hd : (pyStrip d).length ≤ 2) (ha : (pyStrip a).length ≤ 3)
    (ho : (pyStrip o).length ≤ 7) :
    (parse_organization_code (some d) (some a) (some o)).isSome = true ↔
      (pyStrip d ≠ "" ∧ pyStrip a ≠ "" ∧ pyStrip o ≠ "" ∧
        ¬(allZero (pyStrip d) = true ∧ allZero (pyStrip a) = true ∧
            allZero (pyStrip o) = true)) := by
  have hred : parse_organization_code (some d) (some a) (some o) =
      if (pyStrip d != "" && pyStrip a != "" && pyStrip o != "") = true then
        if zfill 2 (pyStrip d) ++ zfill 3 (pyStrip a) ++ zfill 7 (pyStrip o) = "000000000000"
          then none
          else some (zfill 2 (pyStrip d) ++ zfill 3 (pyStrip a) ++ zfill 7 (pyStrip o))
      else none := rfl
  rw [hred]
  by_cases h1 : pyStrip d = ""
  · simp [h1]
  by_cases h2 : pyStrip a = ""
  · simp [h2]
  by_cases h3 : pyStrip o = ""
  · simp [h3]
  have hlen : (zfill 2 (pyStrip d) ++ zfill 3 (pyStrip a) ++ zfill 7 (pyStrip o)).length = 12 := by
    rw [String.length_append, String.length_append, zfill_length_of_le hd,
      zfill_length_of_le ha, zfill_length_of_le ho]
  have hrep : ("000000000000" : String) = ⟨List.replicate 12 '0'⟩ := by decide
  have hzero :
      (zfill 2 (pyStrip d) ++ zfill 3 (pyStrip a) ++ zfill 7 (pyStrip o) = "000000000000") ↔
        (allZero (pyStrip d) = true ∧ allZero (pyStrip a) = true ∧
          allZero (pyStrip o) = true) := by
    rw [hrep, ← allZero_iff_eq_replicate hlen, allZero_append, allZero_append,
      allZero_zfill, allZero_zfill, allZero_zfill, Bool.and_assoc]
    simp [Bool.and_eq_true]
  have hcond : (pyStrip d != "" && pyStrip a != "" && pyStrip o != "") = true := by
    simp [h1, h2, h3]
  rw [if_pos hcond]
  by_cases hz : zfill 2 (pyStrip d) ++ zfill 3 (pyStrip a) ++ zfill 7 (pyStrip o) = "000000000000"
  · rw [if_pos hz]
    exact iff_of_false (by simp) (fun hc => hc.2.2.2 (hzero.mp hz))
  · rw [if_neg hz]
    exact iff_of_true rfl ⟨h1, h2, h3, fun hall => hz (hzero.mpr hall)⟩

/-- Branch analysis of `parse_region_code` on a present field. -/
theorem parse_region_isSome_iff {r : String} (hr : (pyStrip r).length ≤ 2) :
    (parse_region_code (some r)).isSome = true ↔
      (pyStrip r ≠ "" ∧ ¬allZero (pyStrip r) = true) := by
  have hred : parse_region_code (some r) =
      if pyStrip r = "" then none
      else if zfill 2 (pyStrip r) = "00" then none else some (zfill 2 (pyStrip r)) := rfl
  rw [hred]
  by_cases h1 : pyStrip r = ""
  · simp [h1]
  have hlen : (zfill 2 (pyStrip r)).length = 2 := zfill_length_of_le hr
  have hrep : ("00" : String) = ⟨List.replicate 2 '0'⟩ := by decide
  have hzero : (zfill 2 (pyStrip r) = "00") ↔ allZero (pyStrip r) = true := by
    rw [hrep, ← allZero_iff_eq_replicate hlen, allZero_zfill]
  rw [if_neg h1]
  by_cases hz : zfill 2 (pyStrip r) = "00"
  · rw [if_pos hz]
    exact iff_of_false (by simp) (fun hc => hc.2 (hzero.mp hz))
  · rw [if_neg hz]
    exact iff_of_true rfl ⟨h1, fun hall => hz (hzero.mpr hall)⟩

/-- The reduced branch structure of `parse_funding_code` on a present
field. -/
theorem parse_funding_code_red (lookup : String → Option String) (f : String) :
    parse_funding_code lookup (some f) =
      (if pyStrip f = "" then none
        else if (pyStrip f).length = 8 then
          if pyStrip f = "00000000" then none
          else some ⟨pyStrip f, "native", none⟩
        else if (pyStrip f).length = 6 then
          match lookup (pyStrip f) with
          | some full => some ⟨full, "6-digit-lookup", some (pyStrip f)⟩
          | none => none
        else none) := rfl

/-- An all-zero 8-character funding code is absent. -/
theorem parse_funding_code_zero8 {lookup : String → Option String} {f : String}
    (h : pyStrip f = "00000000") : parse_funding_code lookup (some f) = none := by
  rw [parse_funding_code_red, h,
    if_neg (by decide : ¬("00000000" : String) = ""),
    if_pos (by decide : ("00000000" : String).length = 8), if_pos rfl]

/-- Branch analysis of `parse_funding_code` at the declared 8-digit width. -/
theorem parse_funding_isSome_iff {lookup : String → Option String} {f : String}
    (h8 : (pyStrip f).length = 8) :
    (parse_funding_code lookup (some f)).isSome = true ↔ ¬allZero (pyStrip f) = true := by
  have hrep : ("00000000" : String) = ⟨List.replicate 8 '0'⟩ := by decide
  have hzero : (pyStrip f = "00000000") ↔ allZero (pyStrip f) = true := by
    rw [hrep, ← allZero_iff_eq_replicate h8]
  by_cases hz : pyStrip f = "00000000"
  · rw [parse_funding_code_zero8 hz]
    exact iff_of_false (by simp) (fun hc => hc (hzero.mp hz))
  · rw [parse_funding_code_eight h8 hz]
    exact iff_of_true rfl (fun hall => hz (hzero.mpr hall))

/-- Branch analysis of `parse_object_code` on a single present field. -/
theorem parse_object_isSome_iff {s : String} (hs : (pyStrip s).length ≤ 10) :
    (parse_object_code (some s) none).isSome = true ↔
      (pyStrip s ≠ "" ∧ ¬allZero (pyStrip s) = true) := by
  by_cases h0 : s = ""
  · subst h0
    exact iff_of_false (by decide) (fun hc => hc.1 rfl)
  have hor : pyOr (some s) none = some s := by
    rw [show pyOr (some s) none = if s = "" then none else some s from rfl, if_neg h0]
  have hred : parse_object_code (some s) none =
      if pyStrip s = "" then none
      else if zfill 10 (pyStrip s) = "0000000000" then none
      else some (zfill 10 (pyStrip s)) := by
    unfold parse_object_code
    rw [hor]
  rw [hred]
  by_cases h1 : pyStrip s = ""
  · simp [h1]
  have hlen : (zfill 10 (pyStrip s)).length = 10 := zfill_length_of_le hs
  have hrep : ("0000000000" : String) = ⟨List.replicate 10 '0'⟩ := by decide
  have hzero : (zfill 10 (pyStrip s) = "0000000000") ↔ allZero (pyStrip s) = true := by
    rw [hrep, ← allZero_iff_eq_replicate hlen, allZero_zfill]
  rw [if_neg h1]
  by_cases hz : zfill 10 (pyStrip s) = "0000000000"
  · rw [if_pos hz]
    exact iff_of_false (by simp) (fun hc => hc.2 (hzero.mp hz))
  · rw [if_neg hz]
    exact iff_of_true rfl ⟨h1, fun hall => hz (hzero.mpr hall)⟩

/-- **C7.** Converting the transaction record
`{"AMT": "1,500.00", "DEPARTMENT": "7", "AGENCY": "1", "OPERUNIT": "1",
"FUNDCD": "01101101"}` yields amount `1500.0`, organization code
`"070010000001"`, funding code `"01101101"` with conversion type
`"native"`; amount coercion strips thousands separators, and every
`None`, empty or non-numeric amount yields `0.0` rather than raising. -/
theorem C7_record_end_to_end :
    (∀ lookup : String → Option String, ∀ bt y : String, ∀ n : Nat,
      let item := convert_record lookup
        { amt := some "1,500.00", department := some "7", agency := some "1",
          operunit := some "1", fundcd := some "01101101" } bt y n
      item.amount = 1500 ∧ item.org_uacs_code = some "070010000001" ∧
        item.funding_uacs_code = some "01101101" ∧
        item.funding_conversion_type = some "native") ∧
    clean_amount none = 0 ∧
    clean_amount (some "") = 0 ∧
    (∀ s : String, pyFloatParse (stripCommas s) = none → clean_amount (some s) = 0) := by
  refine ⟨?_, rfl, rfl, ?_⟩
  · intro lookup bt y n
    have hfund : parse_funding_code lookup (some "01101101") =
        some ⟨"01101101", "native", none⟩ := by
      rw [parse_funding_code_eight (by decide) (by decide)]
      decide
    refine ⟨?_, ?_, ?_, ?_⟩
    · show clean_amount (some "1,500.00") = 1500
      have h : pyFloatParse (stripCommas "1,500.00") = some (false, 1500, 0, 2) := by decide
      simp [clean_amount, pyFloat, h]
    · show parse_organization_code (some "7") (some "1") (some "1") = some "070010000001"
      decide
    · show (parse_funding_code lookup (some "01101101")).map (·.uacs_code) = some "01101101"
      rw [hfund]
      rfl
    · show (parse_funding_code lookup (some "01101101")).map (·.conversion_type) = some "native"
      rw [hfund]
      rfl
  · intro s hs
    show (if s = "" then 0 else (pyFloat (stripCommas s)).getD 0) = 0
    split
    · rfl
    · rw [pyFloat, hs]; rfl

/-- **C7 witness**: the non-numeric branch instantiated at `"abc"`. -/
theorem C7_record_end_to_end_witness :
    pyFloatParse (stripCommas "abc") = none ∧ clean_amount (some "abc") = 0 :=
  ⟨by decide, C7_record_end_to_end.2.2.2 "abc" (by decide)⟩

/-- **C6.** For every converted transaction record, each of the four code
fields (org, region, funding, object) is present in the output map iff
the corresponding source field(s) were non-blank and not entirely
zero-filled at the field's declared width (12-digit organization via its
2/3/7-digit components, 2-digit region, 8-digit funding, 10-digit
object); an all-fill-digit code at the declared width always normalizes
to absent; and absent fields are omitted (`none`) rather than stored as
empty or zero placeholders — a stored value is never the all-zero code. -/
theorem C6_code_fields_present_iff :
    (∀ d a o : String, (pyStrip d).length ≤ 2 → (pyStrip a).length ≤ 3 →
      (pyStrip o).length ≤ 7 →
      ((parse_organization_code (some d) (some a) (some o)).isSome = true ↔
        (pyStrip d ≠ "" ∧ pyStrip a ≠ "" ∧ pyStrip o ≠ "" ∧
          ¬(allZero (pyStrip d) = true ∧ allZero (pyStrip a) = true ∧
              allZero (pyStrip o) = true)))) ∧
    (∀ r : String, (pyStrip r).length ≤ 2 →
      ((parse_region_code (some r)).isSome = true ↔
        (pyStrip r ≠ "" ∧ ¬allZero (pyStrip r) = true))) ∧
    (∀ lookup : String → Option String, ∀ f : String, (pyStrip f).length = 8 →
      ((parse_funding_code lookup (some f)).isSome = true ↔ ¬allZero (pyStrip f) = true)) ∧
    (∀ s : String, (pyStrip s).length ≤ 10 →
      ((parse_object_code (some s) none).isSome = true ↔
        (pyStrip s ≠ "" ∧ ¬allZero (pyStrip s) = true))) ∧
    parse_organization_code (some "00") (some "000") (some "0000000") = none ∧
    parse_region_code (some "00") = none ∧
    (∀ lookup : String → Option String, parse_funding_code lookup (some "00000000") = none) ∧
    parse_object_code (some "0000000000") none = none ∧
    (∀ d a o c, parse_organization_code d a o = some c → c ≠ "000000000000") ∧
    (∀ r c, parse_region_code r = some c → c ≠ "00") ∧
    (∀ s t c, parse_object_code s t = some c → c ≠ "0000000000") ∧
    (∀ lookup rec bt y n,
      (convert_record lookup rec bt y n).org_uacs_code =
          parse_organization_code rec.department rec.agency rec.operunit ∧
        (convert_record lookup rec bt y n).region_code = parse_region_code rec.uacs_reg_id ∧
        (convert_record lookup rec bt y n).funding_uacs_code =
          (parse_funding_code lookup rec.fundcd).map (·.uacs_code) ∧
        (convert_record lookup rec bt y n).object_uacs_code =
          parse_object_code rec.uacs_sobj_cd rec.uacs_obj_cd) := by
  refine ⟨fun d a o hd ha ho => parse_org_isSome_iff hd ha ho,
    fun r hr => parse_region_isSome_iff hr,
    fun lookup f h8 => parse_funding_isSome_iff h8,
    fun s hs => parse_object_isSome_iff hs,
    by decide, by decide, fun lookup => parse_funding_code_zero8 (by decide), by decide,
    ?_, ?_, ?_, fun lookup rec bt y n => ⟨rfl, rfl, rfl, rfl⟩⟩
  · intro d a o c h
    match d, a, o with
    | none, _, _ => exact absurd h (by simp [parse_organization_code, is_valid_value])
    | some d, none, _ =>
        exact absurd h (by simp [parse_organization_code, is_valid_value])
    | some d, some a, none =>
        exact absurd h (by simp [parse_organization_code, is_valid_value])
    | some d, some a, some o =>
      have hred : parse_organization_code (some d) (some a) (some o) =
          if (pyStrip d != "" && pyStrip a != "" && pyStrip o != "") = true then
            if zfill 2 (pyStrip d) ++ zfill 3 (pyStrip a) ++ zfill 7 (pyStrip o) =
                "000000000000"
              then none
              else some (zfill 2 (pyStrip d) ++ zfill 3 (pyStrip a) ++ zfill 7 (pyStrip o))
          else none := rfl
      rw [hred] at h
      split at h
      · split at h
        · exact absurd h (by simp)
        · rename_i hz
          injection h with h'
          subst h'
          exact hz
      · exact absurd h (by simp)
  · intro r c h
    match r with
    | none => exact absurd h (by simp [parse_region_code])
    | some r =>
      have hred : parse_region_code (some r) =
          if pyStrip r = "" then none
          else if zfill 2 (pyStrip r) = "00" then none else some (zfill 2 (pyStrip r)) := rfl
      rw [hred] at h
      split at h
      · exact absurd h (by simp)
      · split at h
        · exact absurd h (by simp)
        · rename_i hz
          injection h with h'
          subst h'
          exact hz
  · intro s t c h
    match hoc : pyOr s t with
    | none =>
        rw [show parse_object_code s t =
            (match pyOr s t with
              | none => none
              | some u =>
                if pyStrip u = "" then none
                else if zfill 10 (pyStrip u) = "0000000000" then none
                else some (zfill 10 (pyStrip u))) from rfl, hoc] at h
        exact absurd h (by simp)
    | some u =>
      have hred : parse_object_code s t =
          if pyStrip u = "" then none
          else if zfill 10 (pyStrip u) = "0000000000" then none
          else some (zfill 10 (pyStrip u)) := by
        rw [show parse_object_code s t =
            (match pyOr s t with
              | none => none
              | some v =>
                if pyStrip v = "" then none
                else if zfill 10 (pyStrip v) = "0000000000" then none
                else some (zfill 10 (pyStrip v))) from rfl, hoc]
      rw [hred] at h
      split at h
      · exact absurd h (by simp)
      · split at h
        · exact absurd h (by simp)
        · rename_i hz
          injection h with h'
          subst h'
          exact hz

/-- **C6 witness**: the presence biconditionals and width hypotheses
evaluated at concrete inputs. -/
theorem C6_code_fields_present_iff_witness :
    ((pyStrip "7").length ≤ 2 ∧ (pyStrip "1").length ≤ 3 ∧ (pyStrip "1").length ≤ 7 ∧
      ((parse_organization_code (some "7") (some "1") (some "1")).isSome = true ↔
        (pyStrip "7" ≠ "" ∧ pyStrip "1" ≠ "" ∧ pyStrip "1" ≠ "" ∧
          ¬(allZero (pyStrip "7") = true ∧ allZero (pyStrip "1") = true ∧
              allZero (pyStrip "1") = true)))) ∧
    ((pyStrip "13").length ≤ 2 ∧
      ((parse_region_code (some "13")).isSome = true ↔
        (pyStrip "13" ≠ "" ∧ ¬allZero (pyStrip "13") = true))) ∧
    ((pyStrip "01101101").length = 8 ∧
      ((parse_funding_code (fun _ => none) (some "01101101")).isSome = true ↔
        ¬allZero (pyStrip "01101101") = true)) ∧
    ((pyStrip "5020101000").length ≤ 10 ∧
      ((parse_object_code (some "5020101000") none).isSome = true ↔
        (pyStrip "5020101000" ≠ "" ∧ ¬allZero (pyStrip "5020101000") = true))) :=
  ⟨⟨by decide, by decide, by decide,
      C6_code_fields_present_iff.1 "7" "1" "1" (by decide) (by decide) (by decide)⟩,
    ⟨by decide, C6_code_fields_present_iff.2.1 "13" (by decide)⟩,
    ⟨by decide, C6_code_fields_present_iff.2.2.1 (fun _ => none) "01101101" (by decide)⟩,
    ⟨by decide, C6_code_fields_present_iff.2.2.2.1 "5020101000" (by decide)⟩⟩

/-- A 6-character funding code goes through the fund-category lookup:
hit or miss is exactly the lookup's answer. -/
theorem parse_funding_code_six {lookup : String → Option String} {f : String}
    (h6 : (pyStrip f).length = 6) :
    parse_funding_code lookup (some f) =
      (lookup (pyStrip f)).map fun full => ⟨full, "6-digit-lookup", some (pyStrip f)⟩ := by
  have hne : pyStrip f ≠ "" := by
    intro h
    rw [h] at h6
    simp at h6
  have h8 : ¬(pyStrip f).length = 8 := by omega
  rw [parse_funding_code_red, if_neg hne, if_neg h8, if_pos h6]
  cases lookup (pyStrip f) <;> rfl

/-- A non-blank funding code whose length is neither 6 nor 8 is absent. -/
theorem parse_funding_code_other_length {lookup : String → Option String} {f : String}
    (h6 : (pyStrip f).length ≠ 6) (h8 : (pyStrip f).length ≠ 8) :
    parse_funding_code lookup (some f) = none := by
  by_cases hne : pyStrip f = ""
  · rw [parse_funding_code_red, if_pos hne]
  · rw [parse_funding_code_red, if_neg hne, if_neg h8, if_neg h6]

/-- Everything the fund-category lookup returns is an 8-character category
code whose last six characters are the queried key. -/
theorem load_fund_categories_sound {cats : List String} {key full : String}
    (h : load_fund_categories cats key = some full) :
    full ∈ cats ∧ full.length = 8 ∧ strSlice full 2 8 = key := by
  unfold load_fund_categories at h
  have hmem : full ∈ cats.filter (fun u => u.length == 8 && strSlice u 2 8 == key) := by
    obtain ⟨hne, heq⟩ := List.mem_getLast?_eq_getLast (l := _) (x := full) h
    rw [heq]
    exact List.getLast_mem hne
  obtain ⟨hc, hp⟩ := List.mem_filter.mp hmem
  simp only [Bool.and_eq_true, beq_iff_eq] at hp
  exact ⟨hc, hp.1, hp.2⟩

/-- Every 8-character fund-category code is found under its 6-character
suffix key. -/
theorem load_fund_categories_complete {cats : List String} {u : String}
    (hu : u ∈ cats) (h8 : u.length = 8) :
    (load_fund_categories cats (strSlice u 2 8)).isSome = true := by
  unfold load_fund_categories
  have hmem : u ∈ cats.filter (fun v => v.length == 8 && strSlice v 2 8 == strSlice u 2 8) := by
    refine List.mem_filter.mpr ⟨hu, ?_⟩
    simp [h8]
  have hne : cats.filter (fun v => v.length == 8 && strSlice v 2 8 == strSlice u 2 8) ≠ [] :=
    List.ne_nil_of_mem hmem
  rw [List.getLast?_eq_getLast_of_ne_nil hne]
  rfl

/-- **C10.** `parse_funding_code` on a 6-digit code returns exactly what
the fund-category lookup answers: a hit yields the full 8-digit
`uacs_code` with conversion type `"6-digit-lookup"` and the original
6-digit code preserved, a miss yields absent; any non-blank code whose
length is neither 6 nor 8 is absent; and the lookup built by
`load_fund_categories` maps the last six characters of each 8-character
fund-category code to that full code (sound and complete). -/
theorem C10_funding_code_lookup :
    (∀ cats : List String, ∀ f : String, (pyStrip f).length = 6 →
      parse_funding_code (load_fund_categories cats) (some f) =
        (load_fund_categories cats (pyStrip f)).map
          fun full => ⟨full, "6-digit-lookup", some (pyStrip f)⟩) ∧
    (∀ lookup : String → Option String, ∀ f : String,
      (pyStrip f).length ≠ 6 → (pyStrip f).length ≠ 8 →
      parse_funding_code lookup (some f) = none) ∧
    (∀ cats : List String, ∀ key full : String,
      load_fund_categories cats key = some full →
        full ∈ cats ∧ full.length = 8 ∧ strSlice full 2 8 = key) ∧
    (∀ cats : List String, ∀ u : String, u ∈ cats → u.length = 8 →
      (load_fund_categories cats (strSlice u 2 8)).isSome = true) :=
  ⟨fun _ _ h6 => parse_funding_code_six h6,
    fun _ _ h6 h8 => parse_funding_code_other_length h6 h8,
    fun _ _ _ h => load_fund_categories_sound h,
    fun _ _ hu h8 => load_fund_categories_complete hu h8⟩

/-- **C10 witness**: the lookup and parse evaluated on a concrete
fund-category table. -/
theorem C10_funding_code_lookup_witness :
    ((pyStrip "101101").length = 6 ∧
      parse_funding_code (load_fund_categories ["01101101"]) (some "101101") =
        (load_fund_categories ["01101101"] (pyStrip "101101")).map
          (fun full => ⟨full, "6-digit-lookup", some (pyStrip "101101")⟩)) ∧
    ((pyStrip "1234567").length ≠ 6 ∧ (pyStrip "1234567").length ≠ 8 ∧
      parse_funding_code (load_fund_categories ["01101101"]) (some "1234567") = none) ∧
    (load_fund_categories ["01101101"] "101101" = some "01101101" ∧
      "01101101" ∈ ["01101101"] ∧ ("01101101" : String).length = 8 ∧
        strSlice "01101101" 2 8 = "101101") ∧
    ("01101101" ∈ ["01101101"] ∧ ("01101101" : String).length = 8 ∧
      (load_fund_categories ["01101101"] (strSlice "01101101" 2 8)).isSome = true) :=
  ⟨⟨by decide, C10_funding_code_lookup.1 ["01101101"] "101101" (by decide)⟩,
    ⟨by decide, by decide,
      C10_funding_code_lookup.2.1 (load_fund_categories ["01101101"]) "1234567"
        (by decide) (by decide)⟩,
    ⟨by decide, C10_funding_code_lookup.2.2.1 ["01101101"] "101101" "01101101" (by decide)⟩,
    ⟨by decide, by decide,
      C10_funding_code_lookup.2.2.2 ["01101101"] "01101101" (by decide) (by decide)⟩⟩

/-! ## `src/scripts/uacs/mfo-pap/converter.py` — PREXC hierarchy dedup

`PAPConverter.convert_prexc_records` walks the NEP/GAA records once,
keeping five insertion-ordered dicts keyed by level-specific uniqueness
keys.  Each dict update depends only on the current record (never on the
dicts), so the single pass equals five independent passes; each dict is
modelled as an insertion-ordered association list, and Python
`list(d.values())` corresponds to mapping `Prod.snd` over it. -/

/-- `PAPConverter.sector_outcomes` as `(code, type, description)` rows. -/
def sector_outcomes : List (String × String × String) := [
    ("100", "Sector", "General public services"),
    ("101", "Sub-Sector", "Executive and legislative organs, financial and fiscal affairs, external affairs"),
    ("102", "Sub-Sector", "Foreign economic aid"),
    ("103", "Sub-Sector", "General services"),
    ("104", "Sub-Sector", "Basic research"),
    ("105", "Sub-Sector", "R&D General public services"),
    ("106", "Sub-Sector", "General public services n.e.c."),
    ("107", "Sub-Sector", "Public debt transactions"),
    ("108", "Sub-Sector", "Transfers of a general character between different levels of government"),
    ("109", "Sub-Sector", "Governance / Government Institutions and Regulatory Regime"),
    ("120", "Sector", "Defense"),
    ("121", "Sub-Sector", "Military Defense"),
    ("122", "Sub-Sector", "Civil Defense"),
    ("123", "Sub-Sector", "Foreign military aid"),
    ("124", "Sub-Sector", "R&D Defense"),
    ("125", "Sub-Sector", "Territorial integrity"),
    ("126", "Sub-Sector", "Defense against cybercrimes"),
    ("127", "Sub-Sector", "Defense n.e.c."),
    ("140", "Sector", "Public order and safety"),
    ("141", "Sub-Sector", "Police services"),
    ("142", "Sub-Sector", "Fire-protection services"),
    ("143", "Sub-Sector", "Law courts"),
    ("144", "Sub-Sector", "Prisons"),
    ("145", "Sub-Sector", "R&D Public order and safety"),
    ("146", "Sub-Sector", "Public order and safety n.e.c."),
    ("160", "Sector", "Economic affairs"),
    ("161", "Sub-Sector", "General economic, commercial and labor affairs"),
    ("162", "Sub-Sector", "Agriculture, forestry, fishing and hunting"),
    ("163", "Sub-Sector", "Fuel and energy"),
    ("164", "Sub-Sector", "Mining, manufacturing and construction"),
    ("165", "Sub-Sector", "Transport"),
    ("166", "Sub-Sector", "Communication"),
    ("167", "Sub-Sector", "Other industries"),
    ("168", "Sub-Sector", "R&D Economic affairs"),
    ("169", "Sub-Sector", "Economic affairs n.e.c."),
    ("180", "Sector", "Environmental protection"),
    ("181", "Sub-Sector", "Waste management"),
    ("182", "Sub-Sector", "Waste water management"),
    ("183", "Sub-Sector", "Pollution abatement"),
    ("184", "Sub-Sector", "Protection of biodiversity and landscape"),
    ("185", "Sub-Sector", "R&D Environmental protection"),
    ("186", "Sub-Sector", "Environmental protection n.e.c."),
    ("200", "Sector", "Housing and community amenities"),
    ("201", "Sub-Sector", "Housing development"),
    ("202", "Sub-Sector", "Community development"),
    ("203", "Sub-Sector", "Water supply"),
    ("204", "Sub-Sector", "Street lighting"),
    ("205", "Sub-Sector", "R&D Housing and community amenities"),
    ("206", "Sub-Sector", "Housing and community amenities n.e.c."),
    ("220", "Sector", "Health"),
    ("221", "Sub-Sector", "Medical products, appliances and equipment"),
    ("222", "Sub-Sector", "Outpatient services"),
    ("223", "Sub-Sector", "Hospital services"),
    ("224", "Sub-Sector", "Public health services"),
    ("225", "Sub-Sector", "R&D Health"),
    ("226", "Sub-Sector", "Health insurance"),
    ("227", "Sub-Sector", "Health n.e.c."),
    ("240", "Sector", "Recreation and culture"),
    ("241", "Sub-Sector", "Recreational and sporting services"),
    ("242", "Sub-Sector", "Cultural services"),
    ("243", "Sub-Sector", "Broadcasting and publishing services"),
    ("244", "Sub-Sector", "Other community services"),
    ("245", "Sub-Sector", "R&D Recreation and, culture"),
    ("246", "Sub-Sector", "Recreation and, culture n.e.c."),
    ("260", "Sector", "Education"),
    ("261", "Sub-Sector", "Pre-primary and primary education"),
    ("262", "Sub-Sector", "Secondary education"),
    ("263", "Sub-Sector", "Post-secondary non-tertiary education"),
    ("264", "Sub-Sector", "Tertiary education"),
    ("265", "Sub-Sector", "Education not definable by level"),
    ("266", "Sub-Sector", "Subsidiary services to education"),
    ("267", "Sub-Sector", "R&D Education"),
    ("268", "Sub-Sector", "School Buildings"),
    ("269", "Sub-Sector", "Education n.e.c."),
    ("270", "Sub-Sector", "Pre-Primary, Primary, and Secondary Education"),
    ("280", "Sector", "Social protection"),
    ("281", "Sub-Sector", "Sickness and disability"),
    ("282", "Sub-Sector", "Old age"),
    ("283", "Sub-Sector", "Survivors"),
    ("284", "Sub-Sector", "Family and children"),
    ("285", "Sub-Sector", "Unemployment"),
    ("286", "Sub-Sector", "Housing"),
    ("287", "Sub-Sector", "Pantawid Pamilya Program or the Conditional Cash Transfer (CCT)"),
    ("288", "Sub-Sector", "Social exclusion n.e.c"),
    ("289", "Sub-Sector", "R&D Social protection"),
    ("290", "Sub-Sector", "Local membership to insurance"),
    ("291", "Sub-Sector", "Conflict-affected areas"),
    ("292", "Sub-Sector", "Social protection n.e.c.")]

/-- Python `self.sector_outcomes.get(code, {}).get("description", default)`
without its default: dict keys are unique, so first match is the match. -/
def sector_outcome_description (code : String) : Option String :=
  (sector_outcomes.find? (fun e => e.1 == code)).map (fun e => e.2.2)

/-- `PAPConverter.get_cost_structure_name`. -/
def get_cost_structure_name (code : String) : String :=
  if code = "1" then "General Administration and Support (GAS)"
  else if code = "2" then "Support to Operations (STO)"
  else if code = "3" then "Operations"
  else if code = "4" then "Special Purpose Funds (SPF)"
  else "Unknown (" ++ code ++ ")"

/-- `PAPConverter.get_identifier_type`. -/
def get_identifier_type (code : String) : String :=
  if code = "1" then "Activity"
  else if code = "2" then "Locally-Funded Project (LFP)"
  else if code = "3" then "Foreign-Assisted Project (FAP)"
  else "Unknown (" ++ code ++ ")"

/-- A raw NEP/GAA record as read by `convert_prexc_records`
(`PREXC_LEVEL` is an integer in the source data, defaulting to `0`). -/
structure PrexcRecord where
  prexc_fpap_id : Option String := none
  prexc_level : Option Int := none
  dsc : Option String := none
  deriving DecidableEq, Repr

/-- `str(record.get('PREXC_FPAP_ID', '')).zfill(15)`. -/
def prexcId (r : PrexcRecord) : String := zfill 15 (r.prexc_fpap_id.getD "")

structure SectorEntity where
  code : String
  description : String
  etype : String
  deriving DecidableEq, Repr

structure OrgOutcomeEntity where
  code : String
  description : String
  sector_code : String
  cost_structure : String
  deriving DecidableEq, Repr

structure ProgramEntity where
  code : String
  full_code : String
  description : String
  org_outcome_code : String
  sector_code : String
  deriving DecidableEq, Repr

structure SubProgramEntity where
  code : String
  full_code : String
  description : String
  program_code : String
  org_outcome_code : String
  deriving DecidableEq, Repr

structure ActivityEntity where
  code : String
  full_code : String
  description : String
  prexc_id : String
  level : Int
  identifier_type : String
  sub_program_code : String
  program_code : String
  org_outcome_code : String
  sector_code : String
  deriving DecidableEq, Repr

/-- The sector-level key and entity derived from one record, or `none`
when the record is skipped (blank / all-zero PREXC id). -/
def sectorEntry (r : PrexcRecord) : Option (String × SectorEntity) :=
  let p := prexcId r
  if p = "000000000000000" then none
  else
    let sc := strSlice p 0 1
    some (sc, ⟨sc, (sector_outcome_description (sc ++ "00")).getD ("Sector " ++ sc), "sector"⟩)

/-- Organizational-outcome key/entity (skipped when the OO digits are
`"00"`). -/
def ooEntry (r : PrexcRecord) : Option (String × OrgOutcomeEntity) :=
  let p := prexcId r
  if p = "000000000000000" then none
  else
    let oo := strSlice p 2 4
    if oo = "00" then none
    else
      some (oo, ⟨oo, "Organizational Outcome " ++ oo, strSlice p 0 1,
        get_cost_structure_name (strSlice p 1 2)⟩)

/-- Program key/entity; the key is `oo_code ++ "-" ++ prog_code`. -/
def progEntry (r : PrexcRecord) : Option (String × ProgramEntity) :=
  let p := prexcId r
  if p = "000000000000000" then none
  else
    let oo := strSlice p 2 4
    let prog := strSlice p 4 6
    if prog = "00" then none
    else
      some (oo ++ "-" ++ prog,
        ⟨prog, strSlice p 0 6,
          if r.prexc_level.getD 0 = 3 then r.dsc.getD "" else "Program " ++ prog,
          oo, strSlice p 0 1⟩)

/-- Sub-program key/entity; keyed by `oo-prog-subprog`. -/
def subprogEntry (r : PrexcRecord) : Option (String × SubProgramEntity) :=
  let p := prexcId r
  if p = "000000000000000" then none
  else
    let oo := strSlice p 2 4
    let prog := strSlice p 4 6
    let sp := strSlice p 6 8
    if sp = "00" then none
    else
      some (oo ++ "-" ++ prog ++ "-" ++ sp,
        ⟨sp, strSlice p 0 8,
          if r.prexc_level.getD 0 = 4 then r.dsc.getD "" else "Sub-program " ++ sp,
          prog, oo⟩)

/-- Activity key/entity; keyed by `oo-prog-subprog-activity`. -/
def activityEntry (r : PrexcRecord) : Option (String × ActivityEntity) :=
  let p := prexcId r
  if p = "000000000000000" then none
  else
    let oo := strSlice p 2 4
    let prog := strSlice p 4 6
    let sp := strSlice p 6 8
    let act := strSlice p 9 14
    if act = "00000" then none
    else
      some (oo ++ "-" ++ prog ++ "-" ++ sp ++ "-" ++ act,
        ⟨act, strSlice p 0 14, r.dsc.getD "", p, r.prexc_level.getD 0,
          get_identifier_type (strSlice p 8 9), sp, prog, oo, strSlice p 0 1⟩)

/-- One record's effect on one level's dict: insert the derived
`(key, entity)` only when the key is not yet present
(`if key not in dict: dict[key] = entity`). -/
def dedupStep {R E : Type} (entry : R → Option (String × E))
    (acc : List (String × E)) (r : R) : List (String × E) :=
  match entry r with
  | none => acc
  | some (k, e) => if acc.any (fun p => p.1 == k) then acc else acc ++ [(k, e)]

/-- One level's deduplicating dict pass: walk the records in order. -/
def dedupFold {R E : Type} (entry : R → Option (String × E)) (l : List R) :
    List (String × E) :=
  l.foldl (dedupStep entry) []

/-- The entity built from the first record in `l` whose derived key is
`k`. -/
def firstEntry {R E : Type} (entry : R → Option (String × E)) (l : List R) (k : String) :
    Option E :=
  ((l.filterMap entry).find? (fun p => p.1 == k)).map Prod.snd

/-- The five per-level outputs of `convert_prexc_records`. -/
structure PrexcResult where
  sectors : List (String × SectorEntity)
  organizational_outcomes : List (String × OrgOutcomeEntity)
  programs : List (String × ProgramEntity)
  sub_programs : List (String × SubProgramEntity)
  activities : List (String × ActivityEntity)
  deriving DecidableEq, Repr

/-- `PAPConverter.convert_prexc_records`. -/
def convert_prexc_records (l : List PrexcRecord) : PrexcResult :=
  { sectors := dedupFold sectorEntry l
    organizational_outcomes := dedupFold ooEntry l
    programs := dedupFold progEntry l
    sub_programs := dedupFold subprogEntry l
    activities := dedupFold activityEntry l }

theorem lookup_append_chain {E : Type} (l₁ l₂ : List (String × E)) (k : String) :
    (l₁ ++ l₂).lookup k =
      match l₁.lookup k with
      | some v => some v
      | none => l₂.lookup k := by
  induction l₁ with
  | nil => rfl
  | cons p l ih =>
      obtain ⟨k', v⟩ := p
      by_cases h : k = k'
      · subst h
        simp [List.lookup_cons]
      · have hbeq : (k == k') = false := by simp [h]
        simp [List.lookup_cons, hbeq, ih]

theorem any_key_eq_isSome_lookup {E : Type} (acc : List (String × E)) (k : String) :
    acc.any (fun p => p.1 == k) = (acc.lookup k).isSome := by
  induction acc with
  | nil => rfl
  | cons p l ih =>
      obtain ⟨k', v⟩ := p
      by_cases h : k = k'
      · subst h
        simp [List.lookup_cons]
      · have hbeq : (k == k') = false := by simp [h]
        have hbeq' : (k' == k) = false := by
          simp only [beq_eq_false_iff_ne, ne_eq]
          exact fun he => h he.symm
        simp [List.lookup_cons, hbeq, hbeq', ih]

theorem dedupFold_go_lookup {R E : Type} (entry : R → Option (String × E)) :
    ∀ (l : List R) (acc : List (String × E)) (k : String),
      (l.foldl (dedupStep entry) acc).lookup k =
        match acc.lookup k with
        | some v => some v
        | none => firstEntry entry l k := by
  intro l
  induction l with
  | nil =>
      intro acc k
      rw [List.foldl_nil]
      cases acc.lookup k <;> rfl
  | cons r l ih =>
      intro acc k
      rw [List.foldl_cons, ih]
      cases hent : entry r with
      | none =>
          have hstep : dedupStep entry acc r = acc := by
            unfold dedupStep
            rw [hent]
          have hfe : firstEntry entry (r :: l) k = firstEntry entry l k := by
            unfold firstEntry
            rw [List.filterMap_cons, hent]
          rw [hstep, hfe]
      | some p =>
          obtain ⟨k', e⟩ := p
          have hfe : firstEntry entry (r :: l) k =
              if (k' == k) = true then some e else firstEntry entry l k := by
            unfold firstEntry
            rw [List.filterMap_cons, hent, List.find?_cons]
            by_cases hkk : (k' == k) = true
            · simp [hkk]
            · simp [hkk]
          by_cases hin : acc.any (fun q => q.1 == k') = true
          · have hstep : dedupStep entry acc r = acc := by
              unfold dedupStep
              rw [hent]
              exact if_pos hin
            rw [hstep, hfe]
            cases hl : acc.lookup k with
            | some v => rfl
            | none =>
                by_cases hkk : (k' == k) = true
                · have hkeq : k = k' := (beq_iff_eq.mp hkk).symm
                  rw [any_key_eq_isSome_lookup, ← hkeq, hl] at hin
                  simp at hin
                · rw [if_neg hkk]
          · have hstep : dedupStep entry acc r = acc ++ [(k', e)] := by
              unfold dedupStep
              rw [hent]
              exact if_neg hin
            rw [hstep, hfe, lookup_append_chain]
            cases hl : acc.lookup k with
            | some v => rfl
            | none =>
                by_cases hkk : (k' == k) = true
                · have hkeq : k = k' := (beq_iff_eq.mp hkk).symm
                  subst hkeq
                  simp [List.lookup_cons]
                · have hbeq : (k == k') = false := by
                    simp only [beq_eq_false_iff_ne, ne_eq]
                    intro he
                    exact hkk (by simp [he])
                  simp [List.lookup_cons, hbeq, hkk]

theorem dedupFold_go_nodup {R E : Type} (entry : R → Option (String × E)) :
    ∀ (l : List R) (acc : List (String × E)),
      ((acc.map Prod.fst).Nodup) → (((l.foldl (dedupStep entry) acc)).map Prod.fst).Nodup := by
  intro l
  induction l with
  | nil => intro acc h; rwa [List.foldl_nil]
  | cons r l ih =>
      intro acc h
      rw [List.foldl_cons]
      refine ih _ ?_
      cases hent : entry r with
      | none =>
          have hstep : dedupStep entry acc r = acc := by
            unfold dedupStep
            rw [hent]
          rw [hstep]
          exact h
      | some p =>
          obtain ⟨k', e⟩ := p
          by_cases hin : acc.any (fun q => q.1 == k') = true
          · have hstep : dedupStep entry acc r = acc := by
              unfold dedupStep
              rw [hent]
              exact if_pos hin
            rw [hstep]
            exact h
          · have hstep : dedupStep entry acc r = acc ++ [(k', e)] := by
              unfold dedupStep
              rw [hent]
              exact if_neg hin
            rw [hstep]
            rw [List.map_append, List.nodup_append]
            refine ⟨h, by simp, ?_⟩
            intro a ha hb
            simp only [List.map_cons, List.map_nil, List.mem_singleton] at hb
            subst hb
            obtain ⟨q, hq, hq1⟩ := List.mem_map.mp ha
            have := List.any_eq_false.mp (Bool.not_eq_true _ ▸ hin) q hq
            rw [hq1] at this
            simp at this

/-- The dict lookup after a full dedup pass returns exactly the entity of
the first record in insertion order whose key matches. -/
theorem dedupFold_lookup {R E : Type} (entry : R → Option (String × E))
    (l : List R) (k : String) :
    (dedupFold entry l).lookup k = firstEntry entry l k := by
  have h := dedupFold_go_lookup entry l [] k
  rwa [show (([] : List (String × E)).lookup k) = none from rfl] at h

/-- The keys of a dedup pass output are pairwise distinct. -/
theorem dedupFold_keys_nodup {R E : Type} (entry : R → Option (String × E)) (l : List R) :
    ((dedupFold entry l).map Prod.fst).Nodup :=
  dedupFold_go_nodup entry l [] (by simp)

/-- **C9 counterexample.**  Two records share the program key `"04-01"`
but differ in the sector and cost digits: the stored program entity keeps
every attribute of the first record (`full_code "310401"`, sector `"3"`),
and the later occurrence — whose derived entity is different — is ignored
entirely, so its attributes are *not* refreshed into the stored entity. -/
theorem C9_attributes_not_refreshed_counterexample :
    (convert_prexc_records
        [⟨some "310401000000000", none, none⟩,
          ⟨some "420401000000000", none, none⟩]).programs =
      [("04-01", ⟨"01", "310401", "Program 01", "04", "3"⟩)] ∧
    progEntry ⟨some "420401000000000", none, none⟩ =
      some ("04-01", ⟨"01", "420401", "Program 01", "04", "4"⟩) ∧
    (⟨"01", "310401", "Program 01", "04", "3"⟩ : ProgramEntity) ≠
      ⟨"01", "420401", "Program 01", "04", "4"⟩ :=
  ⟨by decide, by decide, by decide⟩

/-- **C9 (amended).**  During hierarchy deduplication of PREXC records,
for every input list and every hierarchy level, at most one entity is
created per uniqueness key (the per-level key sequences are duplicate
free), and the entity stored for a key is exactly the one built from the
first occurrence of that key in insertion order — all attributes,
description included, come from that first occurrence, and later
occurrences with the same key are ignored rather than merged. -/
theorem C9_dedup_first_occurrence_wins :
    ∀ l : List PrexcRecord,
      (((convert_prexc_records l).sectors.map Prod.fst).Nodup ∧
        ((convert_prexc_records l).organizational_outcomes.map Prod.fst).Nodup ∧
        ((convert_prexc_records l).programs.map Prod.fst).Nodup ∧
        ((convert_prexc_records l).sub_programs.map Prod.fst).Nodup ∧
        ((convert_prexc_records l).activities.map Prod.fst).Nodup) ∧
      (∀ k : String,
        (convert_prexc_records l).sectors.lookup k = firstEntry sectorEntry l k ∧
          (convert_prexc_records l).organizational_outcomes.lookup k =
            firstEntry ooEntry l k ∧
          (convert_prexc_records l).programs.lookup k = firstEntry progEntry l k ∧
          (convert_prexc_records l).sub_programs.lookup k = firstEntry subprogEntry l k ∧
          (convert_prexc_records l).activities.lookup k = firstEntry activityEntry l k) :=
  fun l =>
    ⟨⟨dedupFold_keys_nodup sectorEntry l, dedupFold_keys_nodup ooEntry l,
        dedupFold_keys_nodup progEntry l, dedupFold_keys_nodup subprogEntry l,
        dedupFold_keys_nodup activityEntry l⟩,
      fun k =>
        ⟨dedupFold_lookup sectorEntry l k, dedupFold_lookup ooEntry l k,
          dedupFold_lookup progEntry l k, dedupFold_lookup subprogEntry l k,
          dedupFold_lookup activityEntry l k⟩⟩

/-! ## `src/sync.py` — paged relationship-derivation loops (C3)

`sync_location` (City→Barangay) and `sync_budget_records` (four edge
types) run the same loop shape: `offset = 0; total = 0; while True:
created = <paged MERGE query at SKIP offset LIMIT batch>; total +=
created; if created == 0: break; offset += batch`.  The backend's
per-window affected-row count is abstracted as a function of the `SKIP`
offset. -/

/-- The paging loop.  `fuel` only makes the source's `while True` total
in the model; the theorems show the result is the same for every
sufficiently large fuel, and `none` (non-termination) when no window
ever reports zero. -/
def pageLoop (pages : Nat → Nat) (batch : Nat) : Nat → Nat → Nat → Option Nat
  | 0, _, _ => none
  | fuel + 1, offset, total =>
      let c := pages offset
      if c = 0 then some (total + c)
      else pageLoop pages batch fuel (offset + batch) (total + c)

/-- `sync_location`'s City→Barangay derivation loop (`batch_size = 50000`,
offset starting at 0). -/
def city_barangay_loop (pages : Nat → Nat) (fuel : Nat) : Option Nat :=
  pageLoop pages 50000 fuel 0 0

/-- One of `sync_budget_records`' relationship loops (`rel_batch = 10000`,
offset starting at 0). -/
def budget_relationship_loop (pages : Nat → Nat) (fuel : Nat) : Option Nat :=
  pageLoop pages 10000 fuel 0 0

theorem pageLoop_terminates_spec (pages : Nat → Nat) (batch : Nat) :
    ∀ (k fuel offset total : Nat), k < fuel →
      pages (offset + k * batch) = 0 →
      (∀ j < k, pages (offset + j * batch) ≠ 0) →
      pageLoop pages batch fuel offset total =
        some (total + ∑ j ∈ Finset.range (k + 1), pages (offset + j * batch)) := by
  intro k
  induction k with
  | zero =>
      intro fuel offset total hf h0 _
      match fuel, hf with
      | fuel + 1, _ =>
        have hz : pages offset = 0 := by simpa using h0
        unfold pageLoop
        rw [if_pos hz]
        simp [hz]
  | succ k ih =>
      intro fuel offset total hf h0 hpos
      match fuel, hf with
      | fuel + 1, hf =>
        have hnz : pages offset ≠ 0 := by
          have := hpos 0 (Nat.succ_pos k)
          simpa using this
        unfold pageLoop
        rw [if_neg hnz]
        have h0' : pages (offset + batch + k * batch) = 0 := by
          have : offset + batch + k * batch = offset + (k + 1) * batch := by ring
          rw [this]
          exact h0
        have hpos' : ∀ j < k, pages (offset + batch + j * batch) ≠ 0 := by
          intro j hj
          have : offset + batch + j * batch = offset + (j + 1) * batch := by ring
          rw [this]
          exact hpos (j + 1) (Nat.succ_lt_succ hj)
        rw [ih fuel (offset + batch) (total + pages offset) (Nat.lt_of_succ_lt_succ hf)
          h0' hpos']
        congr 1
        conv_rhs => rw [Finset.sum_range_succ']
        simp only [show ∀ j : Nat, offset + (j + 1) * batch = offset + batch + j * batch
            from fun j => by ring,
          Nat.zero_mul, Nat.add_zero]
        omega

theorem pageLoop_no_zero_none (pages : Nat → Nat) (batch : Nat) :
    ∀ (fuel offset total : Nat),
      (∀ j < fuel, pages (offset + j * batch) ≠ 0) →
      pageLoop pages batch fuel offset total = none := by
  intro fuel
  induction fuel with
  | zero => intro offset total _; rfl
  | succ fuel ih =>
      intro offset total hpos
      have hnz : pages offset ≠ 0 := by
        have := hpos 0 (Nat.succ_pos fuel)
        simpa using this
      unfold pageLoop
      rw [if_neg hnz]
      refine ih (offset + batch) (total + pages offset) ?_
      intro j hj
      have : offset + batch + j * batch = offset + (j + 1) * batch := by ring
      rw [this]
      exact hpos (j + 1) (Nat.succ_lt_succ hj)

/-- **C3.** Every bounded-page relationship-derivation loop (City→Barangay
with window 50000, and each budget-record edge loop with window 10000) is
a sequential iteration whose `SKIP` offset increases by the fixed page
size on every step — the windows queried are exactly offsets
`0, batch, 2·batch, …` — and it terminates exactly when a window first
reports zero affected rows: if window `k` is the first zero window the
loop stops there and the reported total is the sum of the per-window
counts, and if no window up to the fuel bound reports zero the
`while True` loop does not terminate (`none` at every fuel). -/
theorem C3_paged_derivation :
    (∀ pages : Nat → Nat, ∀ batch k fuel : Nat, k < fuel →
      pages (k * batch) = 0 → (∀ j < k, pages (j * batch) ≠ 0) →
      pageLoop pages batch fuel 0 0 =
        some (∑ j ∈ Finset.range (k + 1), pages (j * batch))) ∧
    (∀ pages : Nat → Nat, ∀ batch fuel : Nat,
      (∀ j < fuel, pages (j * batch) ≠ 0) →
      pageLoop pages batch fuel 0 0 = none) ∧
    (∀ pages : Nat → Nat, ∀ k fuel : Nat, k < fuel →
      pages (k * 50000) = 0 → (∀ j < k, pages (j * 50000) ≠ 0) →
      city_barangay_loop pages fuel =
        some (∑ j ∈ Finset.range (k + 1), pages (j * 50000))) ∧
    (∀ pages : Nat → Nat, ∀ k fuel : Nat, k < fuel →
      pages (k * 10000) = 0 → (∀ j < k, pages (j * 10000) ≠ 0) →
      budget_relationship_loop pages fuel =
        some (∑ j ∈ Finset.range (k + 1), pages (j * 10000))) := by
  have hgen : ∀ pages : Nat → Nat, ∀ batch k fuel : Nat, k < fuel →
      pages (k * batch) = 0 → (∀ j < k, pages (j * batch) ≠ 0) →
      pageLoop pages batch fuel 0 0 =
        some (∑ j ∈ Finset.range (k + 1), pages (j * batch)) := by
    intro pages batch k fuel hk h0 hpos
    have := pageLoop_terminates_spec pages batch k fuel 0 0 hk (by simpa using h0)
      (by intro j hj; simpa using hpos j hj)
    simpa using this
  have hnone : ∀ pages : Nat → Nat, ∀ batch fuel : Nat,
      (∀ j < fuel, pages (j * batch) ≠ 0) →
      pageLoop pages batch fuel 0 0 = none := by
    intro pages batch fuel hpos
    exact pageLoop_no_zero_none pages batch fuel 0 0
      (by intro j hj; simpa using hpos j hj)
  exact ⟨hgen, hnone,
    fun pages k fuel hk h0 hpos => hgen pages 50000 k fuel hk h0 hpos,
    fun pages k fuel hk h0 hpos => hgen pages 10000 k fuel hk h0 hpos⟩

/-- **C3 witness**: a loop whose first two windows create 7 edges each and
whose third window reports zero stops after the third window with total
14. -/
theorem C3_paged_derivation_witness :
    (2 < 5 ∧ (fun off => if off < 20000 then 7 else 0) (2 * 10000) = 0 ∧
      (∀ j < 2, (fun off => if off < 20000 then 7 else 0) (j * 10000) ≠ 0)) ∧
    budget_relationship_loop (fun off => if off < 20000 then 7 else 0) 5 =
      some (∑ j ∈ Finset.range 3, (fun off => if off < 20000 then 7 else 0) (j * 10000)) :=
  ⟨⟨by decide, by decide, by decide⟩,
    C3_paged_derivation.2.2.2 (fun off => if off < 20000 then 7 else 0) 2 5
      (by decide) (by decide) (by decide)⟩

/-! ## `src/scripts/uacs/location/converter.py` — paginated fetcher (C4, C5)

`fetch_single_page` is abstracted as an oracle `Nat → Option (List α)`:
`none` models a request that raises (network error / non-2xx), `some l`
the parsed `data` array.  `fetch_batch` aggregates a thread pool whose
results arrive in completion order; the model aggregates in submission
order, which the claims — about counts, contents and the failed-page
set — do not distinguish.  Wall-clock timestamps are abstracted as a
`clock` indexed by how many checkpoints were written before. -/

/-- One page's outcome inside `fetch_batch`: a page that raises is
failed; a page whose `data` array is empty is also recorded as failed
(`elif data:`); otherwise its records are appended. -/
def fetchStep {α : Type} (oracle : Nat → Option (List α))
    (acc : List α × List Nat) (p : Nat) : List α × List Nat :=
  match oracle p with
  | none => (acc.1, acc.2 ++ [p])
  | some data => if data.isEmpty then (acc.1, acc.2 ++ [p]) else (acc.1 ++ data, acc.2)

/-- `LocationConverter.fetch_batch`, returning `(records, failed_pages)`. -/
def fetch_batch {α : Type} (oracle : Nat → Option (List α)) (pages : List Nat) :
    List α × List Nat :=
  pages.foldl (fetchStep oracle) ([], [])

/-- One batch checkpoint file
(`barangays_batch_<start>_<end>.json`). -/
structure Checkpoint (α : Type) where
  batch_range : String
  records_count : Nat
  failed_pages : List Nat
  timestamp : String
  data : List α
  deriving DecidableEq, Repr

/-- The retry manifest (`failed_pages.json`); the initial fetch writes it
without a `retry_attempt` key (`none` here). -/
structure RetryManifest where
  failed_pages : List Nat
  total_failed : Nat
  timestamp : String
  retry_attempt : Option Nat
  deriving DecidableEq, Repr

/-- Insert into an ascending list (helper for the Python `sorted` model). -/
def insertSorted (x : Nat) : List Nat → List Nat
  | [] => [x]
  | y :: ys => if x ≤ y then x :: y :: ys else y :: insertSorted x ys

/-- Python `sorted` on page numbers (structurally recursive insertion
sort, so it evaluates inside the kernel). -/
def pySorted (l : List Nat) : List Nat := l.foldr insertSorted []

/-- Python `range(a, b, step)` for positive `step`. -/
def pyRange (a b step : Nat) : List Nat :=
  if step = 0 then [] else List.range' a ((b - a + step - 1) / step) step

/-- `LocationConverter.fetch_barangays_from_api`: process the page range
in `batch_size`-wide batches, collect records and failed pages, write one
checkpoint per batch, and — only when some page failed — one retry
manifest listing the sorted failed pages. -/
def fetch_barangays_from_api {α : Type} (oracle : Nat → Option (List α))
    (clock : Nat → String) (start_page end_page batch_size : Nat) :
    List α × List (Checkpoint α) × Option RetryManifest :=
  let st := (pyRange start_page (end_page + 1) batch_size).foldl
    (fun (st : List α × List Nat × List (Checkpoint α)) batch_start =>
      let batch_end := min (batch_start + batch_size - 1) end_page
      let pages := pyRange batch_start (batch_end + 1) 1
      let res := fetch_batch oracle pages
      (st.1 ++ res.1, st.2.1 ++ res.2,
        st.2.2 ++ [⟨toString batch_start ++ "-" ++ toString batch_end,
          res.1.length, res.2, clock st.2.2.length, res.1⟩]))
    ([], [], [])
  (st.1, st.2.2,
    if st.2.1.isEmpty then none
    else some ⟨pySorted st.2.1, st.2.1.length, clock st.2.2.length, none⟩)

/-- `LocationConverter.retry_failed_pages`: `file` is the manifest's
current content (`none` when the file does not exist); the result pairs
the recovered records with the manifest file's new content (`none` when
deleted). -/
def retry_failed_pages {α : Type} (oracle : Nat → Option (List α))
    (file : Option RetryManifest) (ts : String) : List α × Option RetryManifest :=
  match file with
  | none => ([], none)
  | some m =>
      if m.failed_pages.isEmpty then ([], some m)
      else
        let res := fetch_batch oracle m.failed_pages
        if res.2.isEmpty then (res.1, none)
        else
          (res.1, some ⟨pySorted res.2, res.2.length, ts,
            some (m.retry_attempt.getD 0 + 1)⟩)

theorem fetch_batch_failed_mem {α : Type} (oracle : Nat → Option (List α)) :
    ∀ (pages : List Nat) (acc : List α × List Nat),
      ∀ x ∈ (pages.foldl (fetchStep oracle) acc).2, x ∈ acc.2 ∨ x ∈ pages := by
  intro pages
  induction pages with
  | nil =>
      intro acc x hx
      exact Or.inl hx
  | cons p ps ih =>
      intro acc x hx
      rw [List.foldl_cons] at hx
      rcases ih (fetchStep oracle acc p) x hx with hacc | hps
      · have hsub : ∀ y ∈ (fetchStep oracle acc p).2, y ∈ acc.2 ∨ y = p := by
          intro y hy
          cases ho : oracle p with
          | none =>
              have hstep : fetchStep oracle acc p = (acc.1, acc.2 ++ [p]) := by
                unfold fetchStep
                rw [ho]
              rw [hstep] at hy
              rcases List.mem_append.mp hy with h1 | h2
              · exact Or.inl h1
              · exact Or.inr (List.mem_singleton.mp h2)
          | some data =>
              by_cases he : data.isEmpty
              · have hstep : fetchStep oracle acc p = (acc.1, acc.2 ++ [p]) := by
                  unfold fetchStep
                  rw [ho]
                  exact if_pos he
                rw [hstep] at hy
                rcases List.mem_append.mp hy with h1 | h2
                · exact Or.inl h1
                · exact Or.inr (List.mem_singleton.mp h2)
              · have hstep : fetchStep oracle acc p = (acc.1 ++ data, acc.2) := by
                  unfold fetchStep
                  rw [ho]
                  exact if_neg he
                rw [hstep] at hy
                exact Or.inl hy
        rcases hsub x hacc with h1 | h2
        · exact Or.inl h1
        · exact Or.inr (h2 ▸ List.mem_cons_self p ps)
      · exact Or.inr (List.mem_cons_of_mem p hps)

/-- The failed-page list reported by `fetch_batch` only holds pages that
were asked for. -/
theorem fetch_batch_failed_subset {α : Type} (oracle : Nat → Option (List α))
    (pages : List Nat) : ∀ x ∈ (fetch_batch oracle pages).2, x ∈ pages := by
  intro x hx
  rcases fetch_batch_failed_mem oracle pages ([], []) x hx with h | h
  · exact absurd h (List.not_mem_nil x)
  · exact h

/-- `pySorted` neither adds nor removes page numbers. -/
theorem mem_insertSorted (x a : Nat) : ∀ l : List Nat,
    (a ∈ insertSorted x l ↔ a = x ∨ a ∈ l) := by
  intro l
  induction l with
  | nil => simp [insertSorted]
  | cons y ys ih =>
      unfold insertSorted
      by_cases hxy : x ≤ y
      · rw [if_pos hxy]
        simp
      · rw [if_neg hxy]
        simp only [List.mem_cons, ih]
        tauto

theorem mem_pySorted (a : Nat) (l : List Nat) : a ∈ pySorted l ↔ a ∈ l := by
  induction l with
  | nil => simp [pySorted]
  | cons y ys ih =>
      show a ∈ insertSorted y (pySorted ys) ↔ _
      rw [mem_insertSorted, ih]
      simp [eq_comm]

/-- **C4.** Fetching pages 1–20 with batch size 5, where page 7 raises and
every other page returns a non-empty record list: the fetcher returns the
19 succeeded pages' records in page order, writes one checkpoint per
5-page batch carrying that batch's range string, record count, failed
page numbers, timestamp and data, and writes a single retry manifest
whose failed-pages list is exactly `[7]`. -/
theorem C4_fetch_one_failure {α : Type} :
    ∀ (data : Nat → List α) (clock : Nat → String),
      (∀ p, 1 ≤ p → p ≤ 20 → p ≠ 7 → data p ≠ []) →
      (fetch_barangays_from_api (fun p => if p = 7 then none else some (data p))
          clock 1 20 5 =
        (data 1 ++ data 2 ++ data 3 ++ data 4 ++ data 5 ++ data 6 ++ data 8 ++ data 9 ++
            data 10 ++ data 11 ++ data 12 ++ data 13 ++ data 14 ++ data 15 ++ data 16 ++
            data 17 ++ data 18 ++ data 19 ++ data 20,
          [⟨"1-5", (data 1 ++ data 2 ++ data 3 ++ data 4 ++ data 5).length, [], clock 0,
              data 1 ++ data 2 ++ data 3 ++ data 4 ++ data 5⟩,
            ⟨"6-10", (data 6 ++ data 8 ++ data 9 ++ data 10).length, [7], clock 1,
              data 6 ++ data 8 ++ data 9 ++ data 10⟩,
            ⟨"11-15", (data 11 ++ data 12 ++ data 13 ++ data 14 ++ data 15).length, [],
              clock 2, data 11 ++ data 12 ++ data 13 ++ data 14 ++ data 15⟩,
            ⟨"16-20", (data 16 ++ data 17 ++ data 18 ++ data 19 ++ data 20).length, [],
              clock 3, data 16 ++ data 17 ++ data 18 ++ data 19 ++ data 20⟩],
          some ⟨[7], 1, clock 4, none⟩)) ∧
        ((pyRange 1 21 1).filter (fun p => p ≠ 7)).length = 19 := by
  intro data clock h
  refine ⟨?_, by decide⟩
  have hne : ∀ p, 1 ≤ p → p ≤ 20 → p ≠ 7 → (data p).isEmpty = false := by
    intro p h1 h2 h3
    cases hdp : data p with
    | nil => exact absurd hdp (h p h1 h2 h3)
    | cons a l => rfl
  have e1 := hne 1 (by norm_num) (by norm_num) (by norm_num)
  have e2 := hne 2 (by norm_num) (by norm_num) (by norm_num)
  have e3 := hne 3 (by norm_num) (by norm_num) (by norm_num)
  have e4 := hne 4 (by norm_num) (by norm_num) (by norm_num)
  have e5 := hne 5 (by norm_num) (by norm_num) (by norm_num)
  have e6 := hne 6 (by norm_num) (by norm_num) (by norm_num)
  have e8 := hne 8 (by norm_num) (by norm_num) (by norm_num)
  have e9 := hne 9 (by norm_num) (by norm_num) (by norm_num)
  have e10 := hne 10 (by norm_num) (by norm_num) (by norm_num)
  have e11 := hne 11 (by norm_num) (by norm_num) (by norm_num)
  have e12 := hne 12 (by norm_num) (by norm_num) (by norm_num)
  have e13 := hne 13 (by norm_num) (by norm_num) (by norm_num)
  have e14 := hne 14 (by norm_num) (by norm_num) (by norm_num)
  have e15 := hne 15 (by norm_num) (by norm_num) (by norm_num)
  have e16 := hne 16 (by norm_num) (by norm_num) (by norm_num)
  have e17 := hne 17 (by norm_num) (by norm_num) (by norm_num)
  have e18 := hne 18 (by norm_num) (by norm_num) (by norm_num)
  have e19 := hne 19 (by norm_num) (by norm_num) (by norm_num)
  have e20 := hne 20 (by norm_num) (by norm_num) (by norm_num)
  have hr : pyRange 1 21 5 = [1, 6, 11, 16] := by decide
  have hp1 : pyRange 1 6 1 = [1, 2, 3, 4, 5] := by decide
  have hp2 : pyRange 6 11 1 = [6, 7, 8, 9, 10] := by decide
  have hp3 : pyRange 11 16 1 = [11, 12, 13, 14, 15] := by decide
  have hp4 : pyRange 16 21 1 = [16, 17, 18, 19, 20] := by decide
  simp only [fetch_barangays_from_api, hr, Nat.min_def]
  norm_num
  simp only [hp1, hp2, hp3, hp4, fetch_batch, fetchStep, List.foldl_cons, List.foldl_nil]
  norm_num [e1, e2, e3, e4, e5, e6, e8, e9, e10, e11, e12, e13, e14, e15, e16, e17, e18,
    e19, e20, List.append_assoc]
  exact ⟨⟨by decide, by decide, by decide, by decide⟩, by decide⟩

/-- **C4 witness**: the fetch evaluated with one record per page. -/
theorem C4_fetch_one_failure_witness :
    (∀ p, 1 ≤ p → p ≤ 20 → p ≠ 7 → ([p] : List Nat) ≠ []) ∧
      fetch_barangays_from_api (fun p => if p = 7 then none else some [p])
          (fun _ => "t") 1 20 5 =
        ([1, 2, 3, 4, 5, 6, 8, 9, 10, 11, 12, 13, 14, 15, 16, 17, 18, 19, 20],
          [⟨"1-5", 5, [], "t", [1, 2, 3, 4, 5]⟩,
            ⟨"6-10", 4, [7], "t", [6, 8, 9, 10]⟩,
            ⟨"11-15", 5, [], "t", [11, 12, 13, 14, 15]⟩,
            ⟨"16-20", 5, [], "t", [16, 17, 18, 19, 20]⟩],
          some ⟨[7], 1, "t", none⟩) := by
  refine ⟨fun p _ _ _ => List.cons_ne_nil p [], ?_⟩
  have h := (C4_fetch_one_failure (fun p => [p]) (fun _ => "t")
    (fun p _ _ _ => List.cons_ne_nil p [])).1
  rw [h]
  decide

/-- **C5.** `retry_failed_pages`: a missing manifest yields an empty
result without raising; with a manifest present, exactly the listed pages
are re-fetched; when no listed page still fails the manifest file is
deleted; otherwise it is rewritten with exactly the (sorted)
still-failing subset of the listed pages, and a `retry_attempt` counter
one greater than the previous value, a missing counter counting as 0. -/
theorem C5_retry_manifest_lifecycle {α : Type} :
    (∀ (oracle : Nat → Option (List α)) (ts : String),
      retry_failed_pages oracle none ts = ([], none)) ∧
    (∀ (oracle : Nat → Option (List α)) (m : RetryManifest) (ts : String),
      m.failed_pages ≠ [] → (fetch_batch oracle m.failed_pages).2 = [] →
      retry_failed_pages oracle (some m) ts =
        ((fetch_batch oracle m.failed_pages).1, none)) ∧
    (∀ (oracle : Nat → Option (List α)) (m : RetryManifest) (ts : String),
      m.failed_pages ≠ [] → (fetch_batch oracle m.failed_pages).2 ≠ [] →
      retry_failed_pages oracle (some m) ts =
        ((fetch_batch oracle m.failed_pages).1,
          some ⟨pySorted (fetch_batch oracle m.failed_pages).2,
            (fetch_batch oracle m.failed_pages).2.length, ts,
            some (m.retry_attempt.getD 0 + 1)⟩)) ∧
    (∀ (oracle : Nat → Option (List α)) (pages : List Nat),
      ∀ x ∈ (fetch_batch oracle pages).2, x ∈ pages) ∧
    (∀ (l : List Nat) (x : Nat), x ∈ pySorted l ↔ x ∈ l) := by
  have hred : ∀ (oracle : Nat → Option (List α)) (m : RetryManifest) (ts : String),
      retry_failed_pages oracle (some m) ts =
        if m.failed_pages.isEmpty then ([], some m)
        else if (fetch_batch oracle m.failed_pages).2.isEmpty then
          ((fetch_batch oracle m.failed_pages).1, none)
        else
          ((fetch_batch oracle m.failed_pages).1,
            some ⟨pySorted (fetch_batch oracle m.failed_pages).2,
              (fetch_batch oracle m.failed_pages).2.length, ts,
              some (m.retry_attempt.getD 0 + 1)⟩) :=
    fun _ _ _ => rfl
  refine ⟨fun _ _ => rfl, ?_, ?_, fetch_batch_failed_subset, fun l x => mem_pySorted x l⟩
  · intro oracle m ts hne hok
    rw [hred, if_neg (by simpa [List.isEmpty_iff] using hne),
      if_pos (by simp [hok])]
  · intro oracle m ts hne hfail
    rw [hred, if_neg (by simpa [List.isEmpty_iff] using hne),
      if_neg (by simpa [List.isEmpty_iff] using hfail)]

/-- **C5 witness**: a retry where page 7 keeps failing increments the
attempt counter from missing (0) to 1 and keeps `[7]` in the rewritten
manifest; a retry where page 7 succeeds deletes the manifest. -/
theorem C5_retry_manifest_lifecycle_witness :
    (([7] : List Nat) ≠ [] ∧
      (fetch_batch (fun _ => (none : Option (List Nat))) [7]).2 ≠ [] ∧
      retry_failed_pages (fun _ => (none : Option (List Nat)))
          (some ⟨[7], 1, "t", none⟩) "u" =
        ([], some ⟨[7], 1, "u", some 1⟩)) ∧
    (([7] : List Nat) ≠ [] ∧
      (fetch_batch (fun p => some [p]) [7]).2 = [] ∧
      retry_failed_pages (fun p => some [p]) (some ⟨[7], 1, "t", none⟩) "u" =
        ([7], none)) := by
  refine ⟨⟨by decide, by decide, ?_⟩, ⟨by decide, by decide, ?_⟩⟩
  · have h := C5_retry_manifest_lifecycle.2.2.1 (fun _ => (none : Option (List Nat)))
      ⟨[7], 1, "t", none⟩ "u" (by decide) (by decide)
    rw [h]
    decide
  · have h := C5_retry_manifest_lifecycle.2.1 (fun p => some [p])
      ⟨[7], 1, "t", none⟩ "u" (by decide) (by decide)
    rw [h]
    decide

/-! ## `src/sync.py` — failure semantics of a sync run (C2)

`sync_all` wraps the whole run in a single `try`.  Inside it, the
sub-syncs issue three shapes of backend call:

* `session.execute_write(self.batch_create_nodes, …)` upserts — **no**
  per-call handler, an exception propagates to `sync_all`'s handler,
  which prints `❌ Error: {e}` and returns (remaining operations never
  run);
* `create_relationships_simple(session, query, description)` — its own
  `try/except` prints `✗ {description}: ERROR - {e}` and returns 0, and
  the run continues;
* the paged derivation loops (`session.run` inside `while True`) — like
  the upserts, no per-call handler.

Each backend call is abstracted as `Except String Nat`: the count the
call would report, or the raised error's description. -/

/-- `Neo4jSync.create_relationships_simple`: returns the relationship
count and the log line; an error is logged with the description and
reported as zero. -/
def create_relationships_simple (backend : Except String Nat) (description : String) :
    Nat × List String :=
  match backend with
  | .ok count => (count, ["    ✓ " ++ description ++ ": " ++ toString count])
  | .error e => (0, ["    ✗ " ++ description ++ ": ERROR - " ++ e])

/-- One backend operation of a sync run, tagged by which of the three
call shapes in `sync.py` issues it. -/
inductive SyncOp where
  | upsert (description : String) (backend : Except String Nat) : SyncOp
  | derive_simple (description : String) (backend : Except String Nat) : SyncOp
  | derive_paged (description : String) (backend : Except String Nat) : SyncOp
  deriving Repr

/-- The run under `sync_all`'s single `try`: completed operations are
reported with their counts; a `derive_simple` error is absorbed by its
own handler and the run continues; an `upsert` or `derive_paged` error
reaches the top-level handler, which logs it and stops the run. -/
def run_sync_ops : List SyncOp → List (String × Nat) × List String
  | [] => ([], [])
  | .derive_simple d b :: rest =>
      let r := create_relationships_simple b d
      let k := run_sync_ops rest
      ((d, r.1) :: k.1, r.2 ++ k.2)
  | .upsert d b :: rest =>
      match b with
      | .ok c =>
          let k := run_sync_ops rest
          ((d, c) :: k.1, k.2)
      | .error e => ([], ["❌ Error: " ++ e])
  | .derive_paged d b :: rest =>
      match b with
      | .ok c =>
          let k := run_sync_ops rest
          ((d, c) :: k.1, k.2)
      | .error e => ([], ["❌ Error: " ++ e])

/-- **C2 counterexample.**  A batch upsert that raises is *not* treated
as zero-affected with the run continuing: the following relationship
derivation never executes, so the run's results are empty rather than
containing the failed upsert as zero and the next operation's count. -/
theorem C2_upsert_error_aborts_counterexample :
    run_sync_ops [.upsert "Fund Clusters" (.error "boom"),
        .derive_simple "FundCluster → FinancingSource" (.ok 5)] =
      ([], ["❌ Error: boom"]) ∧
    run_sync_ops [.upsert "Fund Clusters" (.error "boom"),
        .derive_simple "FundCluster → FinancingSource" (.ok 5)] ≠
      ([("Fund Clusters", 0), ("FundCluster → FinancingSource", 5)],
        ["❌ Error: boom"]) :=
  ⟨by decide, by decide⟩

/-- **C2 (amended).**  A relationship-derivation call made through
`create_relationships_simple` that raises a backend error is caught,
logged with its description, treated as zero relationships, and the run
proceeds to the next operation; a successful one reports its count and
continues likewise.  But a batch-upsert call or a paged derivation query
that raises reaches only `sync_all`'s top-level handler, which logs the
error and ends the run with every remaining operation unprocessed. -/
theorem C2_failure_semantics :
    (∀ (d e : String) (rest : List SyncOp),
      run_sync_ops (.derive_simple d (.error e) :: rest) =
        ((d, 0) :: (run_sync_ops rest).1,
          ("    ✗ " ++ d ++ ": ERROR - " ++ e) :: (run_sync_ops rest).2)) ∧
    (∀ (d : String) (c : Nat) (rest : List SyncOp),
      run_sync_ops (.derive_simple d (.ok c) :: rest) =
        ((d, c) :: (run_sync_ops rest).1,
          ("    ✓ " ++ d ++ ": " ++ toString c) :: (run_sync_ops rest).2)) ∧
    (∀ (d e : String) (rest : List SyncOp),
      run_sync_ops (.upsert d (.error e) :: rest) = ([], ["❌ Error: " ++ e])) ∧
    (∀ (d e : String) (rest : List SyncOp),
      run_sync_ops (.derive_paged d (.error e) :: rest) = ([], ["❌ Error: " ++ e])) :=
  ⟨fun _ _ _ => rfl, fun _ _ _ => rfl, fun _ _ _ => rfl, fun _ _ _ => rfl⟩

/-! ## `src/sync.py` — idempotent batch upsert and edge derivation (C1)

`batch_create_nodes` issues `UNWIND $nodes AS node MERGE (n:Label
{uk: node.uk}) SET n += node`.  The store of one label is modelled as the
list of its nodes in creation order, a node as its attribute map
(association list; the uniqueness-key property lives inside the map like
any other).  `MERGE` matches every node whose `uk` property equals the
incoming map's, creating `{uk: v}` when none matches, and `SET n += node`
overwrites exactly the keys present in the incoming map.  A `MERGE` on a
`null` key value raises and the write transaction rolls back, leaving the
store unchanged.

Relationship `MERGE` creates the parent→child edge only when that pair
does not already have one; nodes are identified by their position in the
store. -/

/-- A node's attribute map (a JSON object). -/
abbrev Attrs := List (String × String)

/-- Property access: first binding of the key. -/
def getAttr (m : Attrs) (k : String) : Option String := m.lookup k

/-- Set one property: overwrite in place, or append when absent. -/
def setAttr : Attrs → String → String → Attrs
  | [], k, v => [(k, v)]
  | (k', v') :: rest, k, v =>
      if k' = k then (k, v) :: rest else (k', v') :: setAttr rest k v

/-- Cypher `SET n += node`: overwrite the keys present in `upd`, keep the
others. -/
def setAttrs (base upd : Attrs) : Attrs :=
  upd.foldl (fun m kv => setAttr m kv.1 kv.2) base

/-- The last value bound to `k` in an update map — the one `SET n += node`
leaves in place when a key occurs twice. -/
def lastVal (u : Attrs) (k : String) : Option String :=
  match u with
  | [] => none
  | (k', v) :: rest =>
      match lastVal rest k with
      | some w => some w
      | none => if k' = k then some v else none

/-- The nodes of one label, in creation order. -/
abbrev NodeStore := List Attrs

/-- One `MERGE … SET n += node` row of the `UNWIND`. -/
def upsertOne (uk : String) (store : NodeStore) (node : Attrs) : NodeStore :=
  match getAttr node uk with
  | none => store
  | some v =>
      if store.any (fun n => getAttr n uk == some v) then
        store.map (fun n => if getAttr n uk == some v then setAttrs n node else n)
      else
        store ++ [setAttrs [(uk, v)] node]

/-- `Neo4jSync.batch_create_nodes`: upsert every map of the batch in
order, matching on the uniqueness key. -/
def batch_create_nodes (uk : String) (store : NodeStore) (nodes : List Attrs) : NodeStore :=
  nodes.foldl (upsertOne uk) store

/-- Two attribute maps carrying the same properties. -/
def AttrsEq (m m' : Attrs) : Prop := ∀ k, getAttr m k = getAttr m' k

/-- Two stores with the same nodes (in order), compared property-wise. -/
def StoreEq (s s' : NodeStore) : Prop := List.Forall₂ AttrsEq s s'

theorem AttrsEq.refl (m : Attrs) : AttrsEq m m := fun _ => rfl

theorem AttrsEq.trans {a b c : Attrs} (h1 : AttrsEq a b) (h2 : AttrsEq b c) : AttrsEq a c :=
  fun k => (h1 k).trans (h2 k)

theorem getAttr_setAttr (m : Attrs) (k v : String) (k' : String) :
    getAttr (setAttr m k v) k' = if k' = k then some v else getAttr m k' := by
  induction m with
  | nil =>
      by_cases h : k' = k
      · simp [setAttr, getAttr, List.lookup_cons, h]
      · have hb : (k' == k) = false := by simp [h]
        simp [setAttr, getAttr, List.lookup_cons, hb, h]
  | cons p rest ih =>
      obtain ⟨k1, v1⟩ := p
      by_cases h1 : k1 = k
      · subst h1
        simp only [setAttr, if_pos rfl]
        by_cases h2 : k' = k1
        · simp [getAttr, List.lookup_cons, h2]
        · have hb : (k' == k1) = false := by simp [h2]
          simp [getAttr, List.lookup_cons, hb, h2]
      · simp only [setAttr, if_neg h1]
        by_cases h2 : k' = k1
        · have hne : ¬k' = k := by
            rw [h2]
            exact h1
          have hb : (k' == k1) = true := by simp [h2]
          simp [getAttr, List.lookup_cons, hb, hne]
        · have hb : (k' == k1) = false := by simp [h2]
          simp only [getAttr, List.lookup_cons, hb]
          exact ih

/-- Property access after `SET n += upd`: the update's (last) value when
the key occurs in `upd`, the base's value otherwise. -/
theorem getAttr_setAttrs (u : Attrs) : ∀ (m : Attrs) (k : String),
    getAttr (setAttrs m u) k =
      match lastVal u k with
      | some w => some w
      | none => getAttr m k := by
  induction u with
  | nil =>
      intro m k
      cases h : lastVal [] k with
      | some w => exact absurd h (by simp [lastVal])
      | none => rfl
  | cons p u ih =>
      intro m k
      obtain ⟨k1, v1⟩ := p
      show getAttr (setAttrs (setAttr m k1 v1) u) k = _
      rw [ih]
      cases hl : lastVal u k with
      | some w =>
          have : lastVal ((k1, v1) :: u) k = some w := by
            unfold lastVal
            rw [hl]
          rw [this]
      | none =>
          have : lastVal ((k1, v1) :: u) k = if k1 = k then some v1 else none := by
            unfold lastVal
            rw [hl]
          rw [this, getAttr_setAttr]
          by_cases h : k = k1
          · subst h
            simp
          · have h' : ¬k1 = k := fun he => h he.symm
            rw [if_neg h, if_neg h']

/-- Reapplying the same update changes nothing (property-wise). -/
theorem setAttrs_absorb (m u : Attrs) : AttrsEq (setAttrs (setAttrs m u) u) (setAttrs m u) := by
  intro k
  rw [getAttr_setAttrs, getAttr_setAttrs]
  cases lastVal u k <;> rfl

/-- `SET n += u` respects property-wise equality of the base. -/
theorem setAttrs_congr {m m' : Attrs} (u : Attrs) (h : AttrsEq m m') :
    AttrsEq (setAttrs m u) (setAttrs m' u) := by
  intro k
  rw [getAttr_setAttrs, getAttr_setAttrs]
  cases lastVal u k with
  | some w => rfl
  | none => exact h k

theorem lastVal_eq_none_of_not_mem {u : Attrs} {k : String}
    (h : k ∉ u.map Prod.fst) : lastVal u k = none := by
  induction u with
  | nil => rfl
  | cons p u ih =>
      obtain ⟨k1, v1⟩ := p
      simp only [List.map_cons, List.mem_cons] at h
      push_neg at h
      unfold lastVal
      rw [ih h.2, if_neg (fun he => h.1 he.symm)]

/-- On a map without duplicate keys — a JSON object — the first and last
bindings agree. -/
theorem lastVal_eq_getAttr {u : Attrs} (h : (u.map Prod.fst).Nodup) (k : String) :
    lastVal u k = getAttr u k := by
  induction u with
  | nil => rfl
  | cons p u ih =>
      obtain ⟨k1, v1⟩ := p
      simp only [List.map_cons, List.nodup_cons] at h
      unfold lastVal
      by_cases hk : k = k1
      · subst hk
        rw [lastVal_eq_none_of_not_mem h.1]
        simp [getAttr, List.lookup_cons]
      · have hb : (k == k1) = false := by simp [hk]
        rw [ih h.2]
        show (match getAttr u k with
          | some w => some w
          | none => if k1 = k then some v1 else none) = getAttr ((k1, v1) :: u) k
        simp only [getAttr, List.lookup_cons, hb]
        cases List.lookup k u with
        | some w => rfl
        | none => rw [if_neg (fun he => hk he.symm)]

/-- `s` absorbs `node`: some stored node matches `node`'s key, and
re-applying `SET n += node` to any matching stored node changes no
property. -/
def Absorbs (uk : String) (s : NodeStore) (node : Attrs) : Prop :=
  (∃ n ∈ s, getAttr n uk = getAttr node uk) ∧
  (∀ n ∈ s, getAttr n uk = getAttr node uk → AttrsEq (setAttrs n node) n)

theorem forall2_any_congr {uk v : String} {s' s : NodeStore}
    (h : List.Forall₂ AttrsEq s' s) :
    s'.any (fun n => getAttr n uk == some v) = s.any (fun n => getAttr n uk == some v) := by
  induction h with
  | nil => rfl
  | cons hab _ ih => simp [List.any_cons, ih, hab uk]

theorem forall2_map_absorb {uk v : String} {node : Attrs} {s' s : NodeStore}
    (hR : List.Forall₂ AttrsEq s' s)
    (habs : ∀ n ∈ s, getAttr n uk = some v → AttrsEq (setAttrs n node) n) :
    List.Forall₂ AttrsEq
      (s'.map (fun n => if getAttr n uk == some v then setAttrs n node else n)) s := by
  induction hR with
  | nil => exact List.Forall₂.nil
  | @cons a b s' s hab htail ih =>
      simp only [List.map_cons]
      refine List.Forall₂.cons ?_ (ih (fun n hn hv => habs n (List.mem_cons_of_mem b hn) hv))
      by_cases hc : (getAttr a uk == some v) = true
      · rw [if_pos hc]
        have hbv : getAttr b uk = some v := by
          rw [← hab uk]
          exact beq_iff_eq.mp hc
        exact (setAttrs_congr node hab).trans (habs b (List.mem_cons_self b s) hbv)
      · rw [if_neg hc]
        exact hab

/-- After its own upsert the store absorbs the map (whatever it held
before). -/
theorem upsertOne_self_absorbs {uk : String} {node : Attrs} (store : NodeStore)
    (hk : (getAttr node uk).isSome = true) (hnd : (node.map Prod.fst).Nodup) :
    Absorbs uk (upsertOne uk store node) node := by
  obtain ⟨v, hv⟩ := Option.isSome_iff_exists.mp hk
  have hlast : lastVal node uk = some v := by rw [lastVal_eq_getAttr hnd, hv]
  have hred : upsertOne uk store node =
      if store.any (fun n => getAttr n uk == some v) then
        store.map (fun n => if getAttr n uk == some v then setAttrs n node else n)
      else store ++ [setAttrs [(uk, v)] node] := by
    unfold upsertOne
    rw [hv]
  rw [hred]
  by_cases hany : store.any (fun n => getAttr n uk == some v) = true
  · rw [if_pos hany]
    constructor
    · obtain ⟨n, hn, hpred⟩ := List.any_eq_true.mp hany
      refine ⟨setAttrs n node, List.mem_map.mpr ⟨n, hn, by rw [if_pos hpred]⟩, ?_⟩
      rw [getAttr_setAttrs, hlast, hv]
    · intro n' hn' hkey
      obtain ⟨n, hn, hfn⟩ := List.mem_map.mp hn'
      by_cases hc : (getAttr n uk == some v) = true
      · rw [if_pos hc] at hfn
        subst hfn
        exact setAttrs_absorb n node
      · rw [if_neg hc] at hfn
        subst hfn
        rw [hv] at hkey
        exact absurd (by simp [hkey]) hc
  · rw [if_neg hany]
    constructor
    · refine ⟨setAttrs [(uk, v)] node, List.mem_append_right _ (List.mem_singleton.mpr rfl), ?_⟩
      rw [getAttr_setAttrs, hlast, hv]
    · intro n' hn' hkey
      rcases List.mem_append.mp hn' with hold | hnew
      · rw [hv] at hkey
        exact absurd (List.any_eq_true.mpr ⟨n', hold, by simp [hkey]⟩) hany
      · rw [List.mem_singleton.mp hnew]
        exact setAttrs_absorb _ node

/-- Upserting another map with a *different* key value disturbs neither
part of `Absorbs`. -/
theorem upsertOne_preserves_absorbs {uk : String} {s : NodeStore} {node node' : Attrs}
    (habs : Absorbs uk s node)
    (hk : (getAttr node uk).isSome = true)
    (hk' : (getAttr node' uk).isSome = true)
    (hnd' : (node'.map Prod.fst).Nodup)
    (hne : getAttr node' uk ≠ getAttr node uk) :
    Absorbs uk (upsertOne uk s node') node := by
  obtain ⟨v, hv⟩ := Option.isSome_iff_exists.mp hk
  obtain ⟨w, hw⟩ := Option.isSome_iff_exists.mp hk'
  have hvw : w ≠ v := fun he => hne (by rw [hw, hv, he])
  have hlast' : lastVal node' uk = some w := by rw [lastVal_eq_getAttr hnd', hw]
  obtain ⟨⟨n₀, hn₀, hkey₀⟩, habs2⟩ := habs
  have hred : upsertOne uk s node' =
      if s.any (fun n => getAttr n uk == some w) then
        s.map (fun n => if getAttr n uk == some w then setAttrs n node' else n)
      else s ++ [setAttrs [(uk, w)] node'] := by
    unfold upsertOne
    rw [hw]
  rw [hred]
  by_cases hany : s.any (fun n => getAttr n uk == some w) = true
  · rw [if_pos hany]
    constructor
    · refine ⟨if (getAttr n₀ uk == some w) = true then setAttrs n₀ node' else n₀,
        List.mem_map.mpr ⟨n₀, hn₀, rfl⟩, ?_⟩
      have hc : (getAttr n₀ uk == some w) = false := by
        rw [hkey₀, hv]
        simp only [beq_eq_false_iff_ne, ne_eq, Option.some.injEq]
        exact fun he => hvw he.symm
      rw [if_neg (by simp [hc])]
      exact hkey₀
    · intro n' hn' hkey
      obtain ⟨n, hn, hfn⟩ := List.mem_map.mp hn'
      by_cases hc : (getAttr n uk == some w) = true
      · rw [if_pos hc] at hfn
        subst hfn
        rw [getAttr_setAttrs, hlast', hv] at hkey
        exact absurd (Option.some.inj hkey) hvw
      · rw [if_neg hc] at hfn
        subst hfn
        exact habs2 n hn hkey
  · rw [if_neg hany]
    constructor
    · exact ⟨n₀, List.mem_append_left _ hn₀, hkey₀⟩
    · intro n' hn' hkey
      rcases List.mem_append.mp hn' with hold | hnew
      · exact habs2 n' hold hkey
      · rw [List.mem_singleton.mp hnew] at hkey ⊢
        rw [getAttr_setAttrs, hlast', hv] at hkey
        exact absurd (Option.some.inj hkey) hvw

theorem batch_preserves_absorbs {uk : String} {node : Attrs}
    (hk : (getAttr node uk).isSome = true) :
    ∀ (rest : List Attrs) (s : NodeStore),
      Absorbs uk s node →
      (∀ nd ∈ rest, (getAttr nd uk).isSome = true ∧ (nd.map Prod.fst).Nodup ∧
        getAttr nd uk ≠ getAttr node uk) →
      Absorbs uk (batch_create_nodes uk s rest) node := by
  intro rest
  induction rest with
  | nil => intro s h _; exact h
  | cons nd rest ih =>
      intro s h hrest
      have hfold : batch_create_nodes uk s (nd :: rest) =
          batch_create_nodes uk (upsertOne uk s nd) rest := by
        unfold batch_create_nodes
        rw [List.foldl_cons]
      rw [hfold]
      obtain ⟨hknd, hndnd, hnend⟩ := hrest nd (List.mem_cons_self nd rest)
      exact ih (upsertOne uk s nd)
        (upsertOne_preserves_absorbs h hk hknd hndnd hnend)
        (fun nd' hnd' => hrest nd' (List.mem_cons_of_mem nd hnd'))

/-- After one full batch run, the store absorbs every map of the batch —
given present keys (H1), pairwise-distinct key values (H2, entity sets
are deduplicated upstream) and duplicate-free attribute names (H3, the
maps are JSON objects). -/
theorem batch_absorbs_all {uk : String} :
    ∀ (nodes : List Attrs) (store : NodeStore),
      (∀ nd ∈ nodes, (getAttr nd uk).isSome = true) →
      ((nodes.map (fun n => getAttr n uk)).Nodup) →
      (∀ nd ∈ nodes, (nd.map Prod.fst).Nodup) →
      ∀ node ∈ nodes, Absorbs uk (batch_create_nodes uk store nodes) node := by
  intro nodes
  induction nodes with
  | nil =>
      intro store _ _ _ node h
      exact absurd h (List.not_mem_nil node)
  | cons nd rest ih =>
      intro store h1 h2 h3 node hmem
      have hfold : batch_create_nodes uk store (nd :: rest) =
          batch_create_nodes uk (upsertOne uk store nd) rest := by
        unfold batch_create_nodes
        rw [List.foldl_cons]
      rw [hfold]
      simp only [List.map_cons, List.nodup_cons] at h2
      rcases List.mem_cons.mp hmem with heq | hrest
      · subst heq
        refine batch_preserves_absorbs (h1 node (List.mem_cons_self node rest)) rest _
          (upsertOne_self_absorbs store (h1 node (List.mem_cons_self node rest))
            (h3 node (List.mem_cons_self node rest))) ?_
        intro nd' hnd'
        refine ⟨h1 nd' (List.mem_cons_of_mem node hnd'),
          h3 nd' (List.mem_cons_of_mem node hnd'), ?_⟩
        intro he
        exact h2.1 (List.mem_map.mpr ⟨nd', hnd', he⟩)
      · exact ih (upsertOne uk store nd)
          (fun nd' hnd' => h1 nd' (List.mem_cons_of_mem nd hnd')) h2.2
          (fun nd' hnd' => h3 nd' (List.mem_cons_of_mem nd hnd')) node hrest

/-- Re-running a batch against a store that absorbs every map leaves the
store property-wise unchanged. -/
theorem batch_noop_of_absorbs {uk : String} :
    ∀ (nodes : List Attrs) (s' s : NodeStore),
      List.Forall₂ AttrsEq s' s →
      (∀ nd ∈ nodes, (getAttr nd uk).isSome = true ∧ Absorbs uk s nd) →
      List.Forall₂ AttrsEq (batch_create_nodes uk s' nodes) s := by
  intro nodes
  induction nodes with
  | nil => intro s' s hR _; exact hR
  | cons nd rest ih =>
      intro s' s hR h
      obtain ⟨hk, ⟨⟨n₀, hn₀, hkey₀⟩, habs2⟩⟩ := h nd (List.mem_cons_self nd rest)
      obtain ⟨v, hv⟩ := Option.isSome_iff_exists.mp hk
      have hanyS : s.any (fun n => getAttr n uk == some v) = true :=
        List.any_eq_true.mpr ⟨n₀, hn₀, by simp [hkey₀.trans hv]⟩
      have hany' : s'.any (fun n => getAttr n uk == some v) = true := by
        rw [forall2_any_congr hR]
        exact hanyS
      have hstep : upsertOne uk s' nd =
          s'.map (fun n => if getAttr n uk == some v then setAttrs n nd else n) := by
        have hred : upsertOne uk s' nd =
            if s'.any (fun n => getAttr n uk == some v) then
              s'.map (fun n => if getAttr n uk == some v then setAttrs n nd else n)
            else s' ++ [setAttrs [(uk, v)] nd] := by
          unfold upsertOne
          rw [hv]
        rw [hred]
        exact if_pos hany'
      have hfold : batch_create_nodes uk s' (nd :: rest) =
          batch_create_nodes uk (upsertOne uk s' nd) rest := by
        unfold batch_create_nodes
        rw [List.foldl_cons]
      rw [hfold, hstep]
      refine ih _ s ?_ (fun nd' hnd' => h nd' (List.mem_cons_of_mem nd hnd'))
      refine forall2_map_absorb hR ?_
      intro n hn hnv
      exact habs2 n hn (by rw [hnv, hv])

/-- The parent/child index pairs a structural join predicate matches
(`MATCH (p:…) MATCH (c:…) WHERE pred`): nodes are identified by their
position in their label's store. -/
def matchPairs (parents children : List Attrs) (pred : Attrs → Attrs → Bool) :
    List (Nat × Nat) :=
  parents.enum.flatMap (fun pi =>
    (children.enum.filter (fun ci => pred pi.2 ci.2)).map (fun ci => (pi.1, ci.1)))

/-- Relationship `MERGE`: add each matched pair's edge only when that
pair does not already have one. -/
def merge_edges (edges pairs : List (Nat × Nat)) : List (Nat × Nat) :=
  pairs.foldl (fun es p => if p ∈ es then es else es ++ [p]) edges

/-- One structural relationship derivation
(`MATCH … MATCH … MERGE (p)-[:T]->(c)`). -/
def derive_relationship (parents children : List Attrs) (pred : Attrs → Attrs → Bool)
    (edges : List (Nat × Nat)) : List (Nat × Nat) :=
  merge_edges edges (matchPairs parents children pred)

theorem mem_merge_edges_of_mem {q : Nat × Nat} :
    ∀ (pairs edges : List (Nat × Nat)), q ∈ edges → q ∈ merge_edges edges pairs := by
  intro pairs
  induction pairs with
  | nil => intro edges h; exact h
  | cons p rest ih =>
      intro edges h
      show q ∈ merge_edges (if p ∈ edges then edges else edges ++ [p]) rest
      by_cases hp : p ∈ edges
      · rw [if_pos hp]
        exact ih edges h
      · rw [if_neg hp]
        exact ih (edges ++ [p]) (List.mem_append_left _ h)

theorem mem_merge_edges_of_mem_pairs {q : Nat × Nat} :
    ∀ (pairs edges : List (Nat × Nat)), q ∈ pairs → q ∈ merge_edges edges pairs := by
  intro pairs
  induction pairs with
  | nil => intro edges h; exact absurd h (List.not_mem_nil q)
  | cons p rest ih =>
      intro edges h
      show q ∈ merge_edges (if p ∈ edges then edges else edges ++ [p]) rest
      rcases List.mem_cons.mp h with heq | htail
      · subst heq
        by_cases hp : q ∈ edges
        · rw [if_pos hp]
          exact mem_merge_edges_of_mem rest edges hp
        · rw [if_neg hp]
          exact mem_merge_edges_of_mem rest _
            (List.mem_append_right _ (List.mem_singleton.mpr rfl))
      · by_cases hp : p ∈ edges
        · rw [if_pos hp]
          exact ih edges htail
        · rw [if_neg hp]
          exact ih (edges ++ [p]) htail

theorem merge_edges_noop :
    ∀ (pairs edges : List (Nat × Nat)), (∀ q ∈ pairs, q ∈ edges) →
      merge_edges edges pairs = edges := by
  intro pairs
  induction pairs with
  | nil => intro edges _; rfl
  | cons p rest ih =>
      intro edges h
      show merge_edges (if p ∈ edges then edges else edges ++ [p]) rest = edges
      rw [if_pos (h p (List.mem_cons_self p rest))]
      exact ih edges (fun q hq => h q (List.mem_cons_of_mem p hq))

theorem merge_edges_nodup :
    ∀ (pairs edges : List (Nat × Nat)), edges.Nodup → (merge_edges edges pairs).Nodup := by
  intro pairs
  induction pairs with
  | nil => intro edges h; exact h
  | cons p rest ih =>
      intro edges h
      show (merge_edges (if p ∈ edges then edges else edges ++ [p]) rest).Nodup
      by_cases hp : p ∈ edges
      · rw [if_pos hp]
        exact ih edges h
      · rw [if_neg hp]
        refine ih (edges ++ [p]) ?_
        rw [List.nodup_append]
        exact ⟨h, List.nodup_singleton p, fun a ha hb =>
          hp ((List.mem_singleton.mp hb) ▸ ha)⟩

/-- **C1.** Loading is idempotent.  For every entity set — maps whose
uniqueness key is present (H1), whose key values are pairwise distinct
(H2: entity sets are deduplicated upstream), and whose attribute names
are duplicate-free (H3: JSON objects) — running the keyed batch upsert
twice leaves the same node count and, node for node, the same properties
as running it once, because `MERGE` matches on the uniqueness key before
creating.  And every relationship derivation run twice from any starting
edge set is literally the run-once result — no edge is created that the
first run did not create — because edge `MERGE` only adds a pair that
does not already have an edge; accordingly a duplicate-free edge set
stays duplicate-free. -/
theorem C1_idempotent_loading :
    (∀ (uk : String) (store : NodeStore) (nodes : List Attrs),
      (∀ node ∈ nodes, (getAttr node uk).isSome = true) →
      ((nodes.map (fun n => getAttr n uk)).Nodup) →
      (∀ node ∈ nodes, (node.map Prod.fst).Nodup) →
      (batch_create_nodes uk (batch_create_nodes uk store nodes) nodes).length =
          (batch_create_nodes uk store nodes).length ∧
        StoreEq (batch_create_nodes uk (batch_create_nodes uk store nodes) nodes)
          (batch_create_nodes uk store nodes)) ∧
    (∀ (parents children : List Attrs) (pred : Attrs → Attrs → Bool)
        (edges : List (Nat × Nat)),
      derive_relationship parents children pred
          (derive_relationship parents children pred edges) =
        derive_relationship parents children pred edges) ∧
    (∀ (parents children : List Attrs) (pred : Attrs → Attrs → Bool)
        (edges : List (Nat × Nat)),
      edges.Nodup → (derive_relationship parents children pred edges).Nodup) := by
  refine ⟨?_, ?_, ?_⟩
  · intro uk store nodes h1 h2 h3
    have habs := batch_absorbs_all nodes store h1 h2 h3
    have hrun2 : StoreEq (batch_create_nodes uk (batch_create_nodes uk store nodes) nodes)
        (batch_create_nodes uk store nodes) := by
      refine batch_noop_of_absorbs nodes _ _ ?_ ?_
      · exact List.forall₂_same.mpr (fun m _ => AttrsEq.refl m)
      · exact fun nd hnd => ⟨h1 nd hnd, habs nd hnd⟩
    exact ⟨List.Forall₂.length_eq hrun2, hrun2⟩
  · intro parents children pred edges
    exact merge_edges_noop _ _
      (fun q hq => mem_merge_edges_of_mem_pairs _ edges hq)
  · intro parents children pred edges h
    exact merge_edges_nodup _ edges h

/-- **C1 witness**: a concrete two-entity batch run twice from the empty
store. -/
theorem C1_idempotent_loading_witness :
    ((∀ node ∈ [[("code", "01"), ("description", "Fund A")], [("code", "02")]],
        (getAttr node "code").isSome = true) ∧
      (([[("code", "01"), ("description", "Fund A")],
          [("code", "02")]].map (fun n => getAttr n "code")).Nodup) ∧
      (∀ node ∈ [[("code", "01"), ("description", "Fund A")], [("code", "02")]],
        (node.map Prod.fst).Nodup)) ∧
    StoreEq
      (batch_create_nodes "code"
        (batch_create_nodes "code" []
          [[("code", "01"), ("description", "Fund A")], [("code", "02")]])
        [[("code", "01"), ("description", "Fund A")], [("code", "02")]])
      (batch_create_nodes "code" []
        [[("code", "01"), ("description", "Fund A")], [("code", "02")]]) :=
  ⟨⟨by decide, by decide, by decide⟩,
    ((C1_idempotent_loading.1 "code" []
      [[("code", "01"), ("description", "Fund A")], [("code", "02")]]
      (by decide) (by decide) (by decide)).2)⟩

end OGD
